import Mathlib

/-!
Verification of the phase2-intelligence analytics engine
(`superior-trading-bot-phases/phase2-intelligence/python/`).

Python floats are modelled as rationals (`ℚ`); a float computation whose
result would be NaN / non-finite (mean of an empty list, square root of a
negative number, integer division by zero) is modelled as `Option.none`
where a claim is about NaN-freedom.  Python `round(x, nd)` is modelled as
decimal rounding half-to-even.  External library calls (xgboost / sklearn
fit-predict, UMAP, PCA, HDBSCAN, numpy sqrt) are abstracted as explicit
function parameters, so every theorem quantifies over their behaviour.
-/

namespace Spec2Proof

/-- Round a rational to the nearest integer, ties to even
(the rounding mode of Python's builtin `round`). -/
def rhe (x : ℚ) : ℤ :=
  if x - ⌊x⌋ < 1/2 then ⌊x⌋
  else if 1/2 < x - ⌊x⌋ then ⌊x⌋ + 1
  else if ⌊x⌋ % 2 = 0 then ⌊x⌋ else ⌊x⌋ + 1

/-- Python `round(x, nd)` on rationals. -/
def pyRound (nd : ℕ) (x : ℚ) : ℚ := (rhe (x * 10 ^ nd) : ℚ) / 10 ^ nd

/-- `np.mean` (division by zero, i.e. the NaN of `np.mean([])`, is `0` here;
call sites that can reach the empty case and whose claims depend on it use
explicit emptiness guards instead). -/
def npMean (l : List ℚ) : ℚ := l.sum / (l.length : ℚ)

/-- `np.median`: middle element of the sorted list, or the average of the
two middle elements for even length. -/
def npMedian (l : List ℚ) : ℚ :=
  let s := l.mergeSort fun a b => decide (a ≤ b)
  let n := l.length
  if n % 2 = 1 then s.getD (n / 2) 0
  else (s.getD (n / 2 - 1) 0 + s.getD (n / 2) 0) / 2

theorem abs_rhe_sub_le (x : ℚ) : |(rhe x : ℚ) - x| ≤ 1/2 := by
  have h0 : (⌊x⌋ : ℚ) ≤ x := Int.floor_le x
  have h1 : x < ⌊x⌋ + 1 := Int.lt_floor_add_one x
  unfold rhe
  split_ifs <;> push_cast <;> rw [abs_le] <;> constructor <;> linarith

theorem abs_pyRound_sub_le (nd : ℕ) (x : ℚ) :
    |pyRound nd x - x| ≤ 1 / (2 * 10 ^ nd) := by
  have hpos : (0:ℚ) < 10 ^ nd := by positivity
  have h := abs_rhe_sub_le (x * 10 ^ nd)
  have hx : pyRound nd x - x = ((rhe (x * 10 ^ nd) : ℚ) - x * 10 ^ nd) / 10 ^ nd := by
    unfold pyRound; field_simp; ring
  rw [hx, abs_div, abs_of_pos hpos, div_le_div_iff₀ hpos (by positivity)]
  calc |(rhe (x * 10 ^ nd) : ℚ) - x * 10 ^ nd| * (2 * 10 ^ nd)
      ≤ (1/2) * (2 * 10 ^ nd) := by
        apply mul_le_mul_of_nonneg_right h; positivity
    _ = 1 * 10 ^ nd := by ring

/-- Rounding four summands to 6 decimals moves their sum by at most `2e-6`. -/
theorem sum_pyRound6_close (a b c d p : ℚ) (h : a + b + c + d = p) :
    |pyRound 6 a + pyRound 6 b + pyRound 6 c + pyRound 6 d - p| ≤ 2/1000000 := by
  have ha : |pyRound 6 a - a| ≤ 1/2000000 := by
    have := abs_pyRound_sub_le 6 a; norm_num at this ⊢; linarith
  have hb : |pyRound 6 b - b| ≤ 1/2000000 := by
    have := abs_pyRound_sub_le 6 b; norm_num at this ⊢; linarith
  have hc : |pyRound 6 c - c| ≤ 1/2000000 := by
    have := abs_pyRound_sub_le 6 c; norm_num at this ⊢; linarith
  have hd : |pyRound 6 d - d| ≤ 1/2000000 := by
    have := abs_pyRound_sub_le 6 d; norm_num at this ⊢; linarith
  have he : pyRound 6 a + pyRound 6 b + pyRound 6 c + pyRound 6 d - p =
      (pyRound 6 a - a) + (pyRound 6 b - b) + (pyRound 6 c - c) + (pyRound 6 d - d) := by
    rw [← h]; ring
  rw [he]
  calc |(pyRound 6 a - a) + (pyRound 6 b - b) + (pyRound 6 c - c) + (pyRound 6 d - d)|
      ≤ |(pyRound 6 a - a) + (pyRound 6 b - b) + (pyRound 6 c - c)| + |pyRound 6 d - d| :=
        abs_add _ _
    _ ≤ |(pyRound 6 a - a) + (pyRound 6 b - b)| + |pyRound 6 c - c| + |pyRound 6 d - d| := by
        have := abs_add ((pyRound 6 a - a) + (pyRound 6 b - b)) (pyRound 6 c - c)
        linarith
    _ ≤ |pyRound 6 a - a| + |pyRound 6 b - b| + |pyRound 6 c - c| + |pyRound 6 d - d| := by
        have := abs_add (pyRound 6 a - a) (pyRound 6 b - b)
        linarith
    _ ≤ 2/1000000 := by linarith

/-- Indicator snapshot attached to a trade; each key may be absent. -/
structure Indicators where
  rsi14 : Option ℚ
  bbPosition : Option ℚ
  macdHist : Option ℚ
  trendStrength : Option ℚ
deriving Repr, DecidableEq

/-- A trade event, as the Python dict; `none` models an absent key
(each call site applies exactly the default of its `.get`).  `indicators`
is `none` when the key is absent or the dict is empty (both falsy). -/
structure Trade where
  id : Option String
  botId : Option String
  symbol : Option String
  direction : Option String
  quantity : Option ℚ
  timestamp : Option ℚ
  regime : Option String
  pnl : Option ℚ
  pnlPercentage : Option ℚ
  holdingPeriodMinutes : Option ℚ
  confidence : Option ℚ
  indicators : Option Indicators
deriving Repr, DecidableEq

/-- Trade with every field absent. -/
def Trade.empty : Trade :=
  ⟨none, none, none, none, none, none, none, none, none, none, none, none⟩

namespace Shapley

/-- One attribution output dict (`_build_result`), every numeric field
already rounded to 6 decimals as in the source. -/
structure AttributionRecord where
  tradeId : String
  botId : String
  totalReturn : ℚ
  regimeContribution : ℚ
  timingContribution : ℚ
  directionContribution : ℚ
  sizingContribution : ℚ
  returnIfRandomEntry : ℚ
  returnIfMedianSize : ℚ
  returnIfOppositeDirection : ℚ
  timestamp : ℚ
deriving Repr, DecidableEq

/-- `ShapleyAttribution._build_result`. -/
def buildResult (trade : Trade) (regimeC timingC directionC sizingC
    retRandom retMedian retOpposite : ℚ) : AttributionRecord where
  tradeId := trade.id.getD ""
  botId := trade.botId.getD ""
  totalReturn := trade.pnlPercentage.getD 0
  regimeContribution := pyRound 6 regimeC
  timingContribution := pyRound 6 timingC
  directionContribution := pyRound 6 directionC
  sizingContribution := pyRound 6 sizingC
  returnIfRandomEntry := pyRound 6 retRandom
  returnIfMedianSize := pyRound 6 retMedian
  returnIfOppositeDirection := pyRound 6 retOpposite
  timestamp := trade.timestamp.getD 0

/-- `np.mean(xs) if xs else 0` — the guarded mean used throughout
`_attribute_single`. -/
def meanOr0 (l : List ℚ) : ℚ := if l.isEmpty then 0 else npMean l

/-- The comparison set of `_attribute_single`: all other trades on the same
symbol (lines 31–32). -/
def symbolTradesOf (trade : Trade) (allTrades : List Trade) : List Trade :=
  allTrades.filter fun t => t.symbol == some (trade.symbol.getD "") && t.id != trade.id

/-- The four per-iteration marginal-contribution samples of the Monte-Carlo
loop of `_attribute_single` (lines 48–80), already averaged (lines 82–85).
`picks i` is the value drawn by `rng.choice(all_returns)` in iteration `i`;
the seeded RNG is abstracted as this function, so theorems hold for every
possible draw sequence. -/
def rawContributions (picks : ℕ → ℚ) (trade : Trade) (symbolTrades : List Trade)
    (nPerms : ℕ) : ℚ × ℚ × ℚ × ℚ :=
  let pnlPct := trade.pnlPercentage.getD 0
  let regime := trade.regime.getD "RANGING"
  let direction := trade.direction.getD "buy"
  let quantity := trade.quantity.getD 1
  let otherRegimeReturns :=
    (symbolTrades.filter fun t => t.regime != some regime).map fun t => t.pnlPercentage.getD 0
  let sameRegimeReturns :=
    (symbolTrades.filter fun t => t.regime == some regime).map fun t => t.pnlPercentage.getD 0
  let baselineRegime := meanOr0 otherRegimeReturns
  let regimeAvg := meanOr0 sameRegimeReturns
  let allReturns := symbolTrades.map fun t => t.pnlPercentage.getD 0
  let oppDir := if direction = "buy" then "sell" else "buy"
  let oppReturns :=
    (symbolTrades.filter fun t => t.direction == some oppDir).map fun t => t.pnlPercentage.getD 0
  let oppAvg := meanOr0 oppReturns
  let allSizes := symbolTrades.map fun t => t.quantity.getD 1
  let medianSize := if allSizes.isEmpty then quantity else npMedian allSizes
  let regimeContribs := (List.range nPerms).map fun _ => regimeAvg - baselineRegime
  let timingContribs := (List.range nPerms).map fun i =>
    if allReturns.isEmpty then 0 else pnlPct - picks i
  let directionContribs := (List.range nPerms).map fun _ => pnlPct - oppAvg
  let sizingContribs := (List.range nPerms).map fun _ =>
    if medianSize > 0 ∧ quantity > 0 then
      (if quantity / medianSize ≠ 1 then pnlPct * (1 - 1 / (quantity / medianSize)) else 0)
    else 0
  -- with nPerms = 0 these means are NaN in numpy; `NaN > 0` is false in
  -- Python and `npMean [] = 0 > 0` is false here, so `_attribute_single`
  -- takes the same (equal-split) branch in both models
  (npMean regimeContribs, npMean timingContribs,
   npMean directionContribs, npMean sizingContribs)

/-- Normalization step of `_attribute_single` (lines 87–100): scale the raw
contributions so their absolute values total `pnlPct`, then push the
residual into timing; equal split when the raw total is not positive. -/
def normalizeContribs (pnlPct rawRegime rawTiming rawDirection rawSizing : ℚ) :
    ℚ × ℚ × ℚ × ℚ :=
  let rawTotal := |rawRegime| + |rawTiming| + |rawDirection| + |rawSizing|
  if rawTotal > 0 then
    let scale := if rawTotal ≠ 0 then pnlPct / rawTotal else 0
    let regimeC := rawRegime * |scale|
    let timingC := rawTiming * |scale|
    let directionC := rawDirection * |scale|
    let sizingC := rawSizing * |scale|
    let remainder := pnlPct - (regimeC + timingC + directionC + sizingC)
    (regimeC, timingC + remainder, directionC, sizingC)
  else
    (pnlPct / 4, pnlPct / 4, pnlPct / 4, pnlPct / 4)

/-- `ShapleyAttribution._attribute_single`, assembled from the helpers
above exactly as in the source. -/
def attributeSingle (picks : ℕ → ℚ) (trade : Trade) (allTrades : List Trade)
    (nPerms : ℕ) : AttributionRecord :=
  let pnlPct := trade.pnlPercentage.getD 0
  let quantity := trade.quantity.getD 1
  let symbolTrades := symbolTradesOf trade allTrades
  if symbolTrades.isEmpty then
    let quarter := if pnlPct ≠ 0 then pnlPct / 4 else 0
    buildResult trade quarter quarter quarter quarter
      (pnlPct * (1/2)) (pnlPct * (4/5)) (-pnlPct)
  else
    let raw := rawContributions picks trade symbolTrades nPerms
    let c := normalizeContribs pnlPct raw.1 raw.2.1 raw.2.2.1 raw.2.2.2
    -- counterfactuals (lines 102–108)
    let allReturns := symbolTrades.map fun t => t.pnlPercentage.getD 0
    let returnIfRandom := meanOr0 allReturns
    let allSizes := symbolTrades.map fun t => t.quantity.getD 1
    let medianSize := if allSizes.isEmpty then quantity else npMedian allSizes
    let returnIfMedian := if quantity > 0 then pnlPct * (medianSize / quantity) else pnlPct
    buildResult trade c.1 c.2.1 c.2.2.1 c.2.2.2
      returnIfRandom returnIfMedian (-pnlPct)

/-- `ShapleyAttribution.compute_batch`: one record per trade, comparing each
against the full list.  `picks i` is the RNG draw function for the `i`-th
trade of the batch. -/
def computeBatch (picks : ℕ → ℕ → ℚ) (trades : List Trade) (nPerms : ℕ) :
    List AttributionRecord :=
  (trades.enum.map fun p => attributeSingle (picks p.1) p.2 trades nPerms)

/-- The four contributions reported by `_build_result` sum to the trade's
`pnlPercentage` up to the rounding noise of four 6-decimal roundings,
whenever their unrounded values sum to it exactly. -/
theorem buildResult_sum_close (trade : Trade) (c1 c2 c3 c4 rr rm ro : ℚ)
    (h : c1 + c2 + c3 + c4 = trade.pnlPercentage.getD 0) :
    |(buildResult trade c1 c2 c3 c4 rr rm ro).regimeContribution +
     (buildResult trade c1 c2 c3 c4 rr rm ro).timingContribution +
     (buildResult trade c1 c2 c3 c4 rr rm ro).directionContribution +
     (buildResult trade c1 c2 c3 c4 rr rm ro).sizingContribution -
     (buildResult trade c1 c2 c3 c4 rr rm ro).totalReturn| ≤ 2/1000000 := by
  simp only [buildResult]
  exact sum_pyRound6_close c1 c2 c3 c4 _ h

/-- The normalization step returns four contributions summing exactly to
`pnlPct` (the residual is pushed into timing). -/
theorem normalizeContribs_sum (p r t d s : ℚ) :
    (normalizeContribs p r t d s).1 + (normalizeContribs p r t d s).2.1 +
    (normalizeContribs p r t d s).2.2.1 + (normalizeContribs p r t d s).2.2.2 = p := by
  simp only [normalizeContribs]
  split_ifs <;> dsimp only <;> ring

/-- Every branch of `_attribute_single` ends in `_build_result` with
unrounded contributions summing exactly to `pnlPercentage`. -/
theorem attributeSingle_shape (picks : ℕ → ℚ) (trade : Trade)
    (allTrades : List Trade) (nPerms : ℕ) :
    ∃ c1 c2 c3 c4 rr rm ro, attributeSingle picks trade allTrades nPerms =
        buildResult trade c1 c2 c3 c4 rr rm ro ∧
      c1 + c2 + c3 + c4 = trade.pnlPercentage.getD 0 := by
  simp only [attributeSingle]
  split_ifs with h1 h2
  · exact ⟨_, _, _, _, _, _, _, rfl, by ring⟩
  · have hz : trade.pnlPercentage.getD 0 = 0 := by by_contra hne; exact h2 hne
    exact ⟨_, _, _, _, _, _, _, rfl, by rw [hz]; ring⟩
  all_goals exact ⟨_, _, _, _, _, _, _, rfl, normalizeContribs_sum _ _ _ _ _⟩

/-- In every branch of `_attribute_single`, the reported
(6-decimal-rounded) contributions sum to `pnlPercentage` within `2e-6`. -/
theorem attributeSingle_sum_close (picks : ℕ → ℚ) (trade : Trade)
    (allTrades : List Trade) (nPerms : ℕ) :
    |(attributeSingle picks trade allTrades nPerms).regimeContribution +
     (attributeSingle picks trade allTrades nPerms).timingContribution +
     (attributeSingle picks trade allTrades nPerms).directionContribution +
     (attributeSingle picks trade allTrades nPerms).sizingContribution -
     (attributeSingle picks trade allTrades nPerms).totalReturn| ≤ 2/1000000 := by
  obtain ⟨c1, c2, c3, c4, rr, rm, ro, heq, hsum⟩ :=
    attributeSingle_shape picks trade allTrades nPerms
  rw [heq]
  exact buildResult_sum_close trade c1 c2 c3 c4 rr rm ro hsum

/-- Concrete input refuting the claim at tolerance `1e-9`: a single trade
with `pnlPercentage = 1e-7` has no comparable trades, each quarter
`2.5e-8` rounds to `0` at 6 decimals, so the reported contributions sum to
`0`, off by `1e-7 > 1e-9`. -/
def cexTrade : Trade :=
  { Trade.empty with id := some "t1", symbol := some "AAPL",
                     pnlPercentage := some (1/10000000) }

/-- C1 (counterexample): the four *reported* contributions of the
attribution record for `cexTrade` do not sum to its `pnlPercentage`
within `1e-9`. -/
theorem contributions_sum_1e9_counterexample :
    ¬ |(attributeSingle (fun _ => 0) cexTrade [cexTrade] 100).regimeContribution +
       (attributeSingle (fun _ => 0) cexTrade [cexTrade] 100).timingContribution +
       (attributeSingle (fun _ => 0) cexTrade [cexTrade] 100).directionContribution +
       (attributeSingle (fun _ => 0) cexTrade [cexTrade] 100).sizingContribution -
       (attributeSingle (fun _ => 0) cexTrade [cexTrade] 100).totalReturn| ≤
        1/1000000000 := by
  have h : symbolTradesOf cexTrade [cexTrade] = [] := by
    simp [symbolTradesOf, cexTrade, Trade.empty]
  simp only [attributeSingle, h, List.isEmpty_nil, if_true]
  norm_num [cexTrade, Trade.empty, buildResult, pyRound, rhe]
  rw [abs_of_pos (by norm_num : (0:ℚ) < 1 / 10000000)]
  norm_num

/-- C1 (amended): for every trade processed by the batch, the four reported
contributions (residual already absorbed into timing) sum to the trade's
`pnlPercentage` within `2e-6` (four roundings to 6 decimals at `5e-7`
each); before rounding the sum is exact, in both the comparable-trades
branch and the equal-split branch. -/
theorem contributions_sum_close (picks : ℕ → ℕ → ℚ) (trades : List Trade)
    (nPerms : ℕ) (r : AttributionRecord)
    (hr : r ∈ computeBatch picks trades nPerms) :
    |r.regimeContribution + r.timingContribution + r.directionContribution +
     r.sizingContribution - r.totalReturn| ≤ 2/1000000 := by
  simp only [computeBatch, List.mem_map] at hr
  obtain ⟨⟨i, t⟩, _, rfl⟩ := hr
  exact attributeSingle_sum_close (picks i) t trades nPerms

/-- C1 witness: the amended bound discharged on the concrete one-trade batch. -/
theorem contributions_sum_close_witness :
    (attributeSingle (fun _ => 0) cexTrade [cexTrade] 100) ∈
        computeBatch (fun _ _ => 0) [cexTrade] 100 ∧
    |(attributeSingle (fun _ => 0) cexTrade [cexTrade] 100).regimeContribution +
     (attributeSingle (fun _ => 0) cexTrade [cexTrade] 100).timingContribution +
     (attributeSingle (fun _ => 0) cexTrade [cexTrade] 100).directionContribution +
     (attributeSingle (fun _ => 0) cexTrade [cexTrade] 100).sizingContribution -
     (attributeSingle (fun _ => 0) cexTrade [cexTrade] 100).totalReturn| ≤ 2/1000000 :=
  ⟨by simp [computeBatch], contributions_sum_close (fun _ _ => 0) [cexTrade] 100 _
    (by simp [computeBatch])⟩

end Shapley

namespace Competitive

/-- Python dict assignment `d[k] = v` on an association list. -/
def dictSet {α : Type} (d : List (String × α)) (k : String) (v : α) :
    List (String × α) :=
  if d.any (fun p => p.1 == k) then d.map (fun p => if p.1 == k then (k, v) else p)
  else d ++ [(k, v)]

/-- Python `d.get(k)` (`none` when absent). -/
def dictGet {α : Type} (d : List (String × α)) (k : String) : Option α :=
  (d.find? (fun p => p.1 == k)).map (·.2)

/-- The mutable state of `XGBoostPredictor`: `models` and `train_counts`,
keyed by botId.  `M` is the (opaque) trained-model type of the underlying
library. -/
structure PredictorState (M : Type) where
  models : List (String × M)
  trainCounts : List (String × ℕ)
deriving Repr, DecidableEq

/-- The empty predictor state of `__init__`. -/
def PredictorState.init (M : Type) : PredictorState M := ⟨[], []⟩

/-- Payload of a `competitive:train` request. -/
structure TrainPayload where
  botId : Option String
  features : List (List ℚ)
  labels : List ℤ
  sampleWeights : Option (List ℚ)

/-- Result dict of `XGBoostPredictor.train`: either a structured rejection
(`trained: False` with a reason) or a success report. -/
inductive TrainResult where
  | rejected (botId : String) (reason : String) (sampleCount : ℕ)
  | trained (botId : String) (sampleCount : ℕ) (accuracy : ℚ)
      (buy sell hold : ℕ)
deriving Repr, DecidableEq

/-- `True` exactly for the `trained: True` result (used to phrase "train
did not succeed" without enumerating rejection reasons). -/
def TrainResult.isTrained : TrainResult → Bool
  | .trained .. => true
  | .rejected .. => false

/-- The synthesized exponential recency weights (lines 34–37):
`[0.99 ** (n - 1 - i) for i in range(n)]`. -/
def synthWeights (n : ℕ) : List ℚ :=
  (List.range n).map fun i => (99/100 : ℚ) ^ (n - 1 - i)

/-- The weights `train` passes to the library fit: the supplied
`sampleWeights` if present, else the synthesized recency weights. -/
def usedWeights (payload : TrainPayload) : List ℚ :=
  match payload.sampleWeights with
  | some w => w
  | none => synthWeights payload.features.length

/-- Tail of `XGBoostPredictor.train` after validation (lines 46–68): fit
the library model (`fit` returning `none` models a library exception, which
propagates: `Except.error`), store it in the cache, then report training
accuracy and class distribution.  `mpredict` is the fitted model's
`predict`, which does not raise on the very rows `fit` accepted. -/
def fitAndReport {M : Type} (fit : List (List ℚ) → List ℤ → List ℚ → Option M)
    (mpredict : M → List (List ℚ) → List ℤ) (st : PredictorState M)
    (botId : String) (features : List (List ℚ)) (labels : List ℤ)
    (weights : List ℚ) : Except Unit TrainResult × PredictorState M :=
  match fit features labels weights with
  | none => (.error (), st)
  | some model =>
      let st' : PredictorState M :=
        { models := dictSet st.models botId model,
          trainCounts := dictSet st.trainCounts botId features.length }
      let preds := mpredict model features
      let accuracy := npMean ((preds.zip labels).map fun p => if p.1 = p.2 then 1 else 0)
      (.ok (.trained botId features.length (pyRound 4 accuracy)
            (labels.count 0) (labels.count 1) (labels.count 2)), st')

/-- `XGBoostPredictor.train`. -/
def train {M : Type} (fit : List (List ℚ) → List ℤ → List ℚ → Option M)
    (mpredict : M → List (List ℚ) → List ℤ) (st : PredictorState M)
    (payload : TrainPayload) : Except Unit TrainResult × PredictorState M :=
  let botId := payload.botId.getD ""
  let features := payload.features
  let labels := payload.labels
  if features.length < 10 ∨ labels.length < 10 then
    (.ok (.rejected botId "insufficient_data" features.length), st)
  else
    let weights := usedWeights payload
    if labels.dedup.length < 2 then
      (.ok (.rejected botId "single_class" features.length), st)
    else
      fitAndReport fit mpredict st botId features labels weights

/-- Payload of a `competitive:predict` request. -/
structure PredictPayload where
  botId : Option String
  features : List ℚ

/-- Result dict of `XGBoostPredictor.predict`. -/
inductive PredictResult where
  | noModel (botId : String)
  | predicted (botId : String) (buyProb sellProb holdProb : ℚ)
      (action : String) (confidence : ℚ) (modelAccuracy : ℚ)
deriving Repr, DecidableEq

/-- `np.argmax`: index of the first maximal element. -/
def npArgmax (l : List ℚ) : ℕ :=
  (l.enum.foldl (fun best p => if p.2 > best.2 then p else best) (0, l.headD 0)).1

/-- `XGBoostPredictor.predict`.  `pproba` is the fitted model's
`predict_proba` on a single row. -/
def predict {M : Type} (pproba : M → List ℚ → List ℚ) (st : PredictorState M)
    (payload : PredictPayload) : PredictResult :=
  let botId := payload.botId.getD ""
  match dictGet st.models botId with
  | none => .noModel botId
  | some model =>
      let probs0 := pproba model payload.features
      let probs := if probs0.length < 3
        then probs0 ++ List.replicate (3 - probs0.length) 0 else probs0
      let predictedClass := npArgmax probs
      let actions := ["buy", "sell", "hold"]
      .predicted botId (pyRound 4 (probs.getD 0 0)) (pyRound 4 (probs.getD 1 0))
        (pyRound 4 (if probs.length > 2 then probs.getD 2 0 else 0))
        (actions.getD predictedClass "")
        (pyRound 4 ((probs.max?).getD 0))
        (pyRound 2 (((dictGet st.trainCounts botId).getD 0 : ℚ) / 100))

/-- A list whose elements are all `0` dedups to at most one element. -/
theorem dedup_len_lt_two_of_const (labels : List ℤ) (h : ∀ l ∈ labels, l = 0) :
    labels.dedup.length < 2 := by
  match hdd : labels.dedup with
  | [] => simp
  | [a] => simp
  | a :: b :: t =>
    exfalso
    have ha : a ∈ labels.dedup := by rw [hdd]; exact List.mem_cons_self a (b :: t)
    have hb : b ∈ labels.dedup := by
      rw [hdd]; exact List.mem_cons_of_mem a (List.mem_cons_self b t)
    have nd := labels.nodup_dedup
    rw [hdd] at nd
    have hab : a ≠ b := by
      intro he
      exact (List.nodup_cons.mp nd).1 (he ▸ List.mem_cons_self b t)
    exact hab ((h a (List.mem_dedup.mp ha)).trans (h b (List.mem_dedup.mp hb)).symm)

/-- Concrete input refuting C3 as stated: 5 samples, all labels `buy`. -/
def cexTrainPayload : TrainPayload :=
  { botId := some "b1", features := List.replicate 5 [0],
    labels := List.replicate 5 0, sampleWeights := none }

/-- C3 (counterexample): a train call whose labels are all the buy class
but with only 5 samples is rejected with reason `insufficient_data`, not
`single_class` — the sample-count check runs first. -/
theorem train_single_class_counterexample :
    (∀ l ∈ cexTrainPayload.labels, l = 0) ∧
    (train (M := Unit) (fun _ _ _ => some ()) (fun _ _ => [])
        (PredictorState.init Unit) cexTrainPayload).1 =
      Except.ok (TrainResult.rejected "b1" "insufficient_data" 5) ∧
    "insufficient_data" ≠ "single_class" := by
  refine ⟨by decide, ?_, by decide⟩
  simp [train, cexTrainPayload]

/-- C3 (amended): every train call with at least 10 feature rows and at
least 10 labels, all of which are the buy class (label 0), is rejected
with reason `single_class`. -/
theorem train_single_class {M : Type}
    (fit : List (List ℚ) → List ℤ → List ℚ → Option M)
    (mpredict : M → List (List ℚ) → List ℤ) (st : PredictorState M)
    (payload : TrainPayload)
    (hf : 10 ≤ payload.features.length) (hl : 10 ≤ payload.labels.length)
    (hbuy : ∀ l ∈ payload.labels, l = 0) :
    (train fit mpredict st payload).1 =
      Except.ok (TrainResult.rejected (payload.botId.getD "") "single_class"
        payload.features.length) := by
  have hne : ¬ (payload.features.length < 10 ∨ payload.labels.length < 10) := by omega
  have hdd : payload.labels.dedup.length < 2 := dedup_len_lt_two_of_const _ hbuy
  simp only [train]
  rw [if_neg hne, if_pos hdd]

/-- Concrete input for the C3 witness: 12 samples, all labels `buy`. -/
def cexTrainPayload2 : TrainPayload :=
  { botId := some "b2", features := List.replicate 12 [0],
    labels := List.replicate 12 0, sampleWeights := none }

/-- C3 witness: the amended statement discharged on `cexTrainPayload2`. -/
theorem train_single_class_witness :
    (train (M := Unit) (fun _ _ _ => some ()) (fun _ _ => [])
        (PredictorState.init Unit) cexTrainPayload2).1 =
      Except.ok (TrainResult.rejected "b2" "single_class" 12) := by
  have h := train_single_class (M := Unit) (fun _ _ _ => some ()) (fun _ _ => [])
    (PredictorState.init Unit) cexTrainPayload2 (by decide) (by decide) (by decide)
  simpa [cexTrainPayload2] using h

/-- The `i`-th-from-most-recent synthesized weight is `0.99^i`. -/
theorem synthWeights_getD (n i : ℕ) (h : i < n) :
    (synthWeights n).getD (n - 1 - i) 0 = (99/100 : ℚ) ^ i := by
  have hj : n - 1 - i < n := by omega
  unfold synthWeights
  rw [List.getD_eq_getElem?_getD, List.getElem?_map, List.getElem?_range hj]
  simp only [Option.map_some', Option.getD_some]
  congr 1
  omega

/-- C9: a valid train call with no `sampleWeights` passes exactly the
synthesized recency weights to the library fit, and those weights give the
most recent sample weight `1` and the `i`-th-from-most-recent weight
`0.99^i`. -/
theorem train_recency_weights {M : Type}
    (fit : List (List ℚ) → List ℤ → List ℚ → Option M)
    (mpredict : M → List (List ℚ) → List ℤ) (st : PredictorState M)
    (payload : TrainPayload)
    (hf : 10 ≤ payload.features.length) (hl : 10 ≤ payload.labels.length)
    (hcl : 2 ≤ payload.labels.dedup.length) (hw : payload.sampleWeights = none) :
    train fit mpredict st payload =
      fitAndReport fit mpredict st (payload.botId.getD "") payload.features
        payload.labels (synthWeights payload.features.length) ∧
    (synthWeights payload.features.length).getD (payload.features.length - 1) 0 = 1 ∧
    ∀ i < payload.features.length,
      (synthWeights payload.features.length).getD
          (payload.features.length - 1 - i) 0 = (99/100 : ℚ) ^ i := by
  have hne : ¬ (payload.features.length < 10 ∨ payload.labels.length < 10) := by omega
  have hdd : ¬ payload.labels.dedup.length < 2 := by omega
  refine ⟨?_, ?_, fun i hi => synthWeights_getD _ i hi⟩
  · simp only [train]
    rw [if_neg hne, if_neg hdd]
    simp only [usedWeights, hw]
  · have h0 := synthWeights_getD payload.features.length 0 (by omega)
    simpa using h0

/-- Concrete input for the C9 witness: 10 samples, two label classes,
no supplied weights. -/
def cexTrainPayload3 : TrainPayload :=
  { botId := some "b3", features := List.replicate 10 [0],
    labels := [0, 1, 0, 1, 0, 1, 0, 1, 0, 1], sampleWeights := none }

/-- C9 witness: the recency-weight statement discharged on
`cexTrainPayload3`. -/
theorem train_recency_weights_witness :
    train (M := Unit) (fun _ _ _ => some ()) (fun _ _ => [])
        (PredictorState.init Unit) cexTrainPayload3 =
      fitAndReport (fun _ _ _ => some ()) (fun _ _ => [])
        (PredictorState.init Unit) "b3" cexTrainPayload3.features
        cexTrainPayload3.labels (synthWeights 10) ∧
    (synthWeights 10).getD 9 0 = 1 := by
  obtain ⟨h1, h2, h3⟩ := train_recency_weights (M := Unit) (fun _ _ _ => some ())
    (fun _ _ => []) (PredictorState.init Unit) cexTrainPayload3
    (by decide) (by decide) (by decide) rfl
  exact ⟨by simpa [cexTrainPayload3] using h1, by simpa [cexTrainPayload3] using h2⟩

/-- Whether a train call reported `trained: True`. -/
def trainSucceeded {M : Type} (e : Except Unit TrainResult × PredictorState M) : Bool :=
  match e.1 with
  | .ok r => r.isTrained
  | .error _ => false

/-- C10: whenever `train` does not report `trained: True` — rejection with
`insufficient_data` or `single_class`, or a library exception during fit —
the predictor's `models` and `train_counts` caches are unchanged. -/
theorem train_failure_state_unchanged {M : Type}
    (fit : List (List ℚ) → List ℤ → List ℚ → Option M)
    (mpredict : M → List (List ℚ) → List ℤ) (st : PredictorState M)
    (payload : TrainPayload)
    (h : trainSucceeded (train fit mpredict st payload) = false) :
    (train fit mpredict st payload).2 = st := by
  simp only [train] at h ⊢
  split_ifs at h ⊢ with h1 h2
  · rfl
  · rfl
  · cases hfit : fit payload.features payload.labels (usedWeights payload) with
    | none => simp [fitAndReport, hfit]
    | some m =>
        rw [trainSucceeded] at h
        simp only [fitAndReport, hfit] at h
        simp [TrainResult.isTrained] at h

/-- C10 witness: a rejected train call on the empty cache leaves it empty. -/
theorem train_failure_state_unchanged_witness :
    trainSucceeded (train (M := Unit) (fun _ _ _ => some ()) (fun _ _ => [])
        (PredictorState.init Unit) cexTrainPayload) = false ∧
    (train (M := Unit) (fun _ _ _ => some ()) (fun _ _ => [])
        (PredictorState.init Unit) cexTrainPayload).2 = PredictorState.init Unit :=
  ⟨by simp [trainSucceeded, train, cexTrainPayload, TrainResult.isTrained],
   train_failure_state_unchanged _ _ _ _
     (by simp [trainSucceeded, train, cexTrainPayload, TrainResult.isTrained])⟩

end Competitive

namespace Niche

/-- The fixed 8-regime taxonomy of `niche_discovery.py`. -/
def REGIMES : List String :=
  ["TRENDING_UP", "TRENDING_DOWN", "RANGING", "VOLATILE",
   "BREAKOUT_UP", "BREAKOUT_DOWN", "EVENT_DRIVEN", "QUIET"]

/-- One `performanceByBotRegime[botId][regime]` dict. -/
structure RegimePerf where
  avgReturn : Option ℚ
  tradeCount : Option ℚ

/-- The fields of an archetype dict used by `NicheDiscovery.analyze`. -/
structure ArchetypePayload where
  id : Option ℤ
  memberBotIds : Option (List String)

/-- One output cell dict of `NicheDiscovery.analyze`. -/
structure NicheCell where
  archetypeId : ℤ
  regime : String
  classification : String
  botCount : ℕ
  avgPerformance : ℚ
  totalTrades : ℚ
  opportunityScore : ℚ
deriving Repr, DecidableEq

/-- The per-(archetype, regime) body of the loop of `NicheDiscovery.analyze`
(lines 27–71).  Python's `0.6` literal is modelled as the exact rational
`6/10`; no claim touches the `>= len(members)*0.6` boundary. -/
def analyzeCell (perf : List (String × List (String × RegimePerf)))
    (archId : ℤ) (members : List String) (regime : String) : NicheCell :=
  let pairs := members.filterMap fun botId =>
    let botPerf := (Competitive.dictGet perf botId).getD []
    let regimePerf := Competitive.dictGet botPerf regime
    let avgRet := (regimePerf.bind (·.avgReturn)).getD 0
    let tc := (regimePerf.bind (·.tradeCount)).getD 0
    if tc > 0 then some (avgRet, tc) else none
  let returns := pairs.map (·.1)
  let tradeCounts := pairs.map (·.2)
  let botCount := returns.length
  let totalTrades := tradeCounts.sum
  let avgPerformance := if returns.isEmpty then 0 else returns.sum / (returns.length : ℚ)
  let cls : String × ℚ :=
    if botCount = 0 ∧ totalTrades = 0 then ("unexplored", 8/10)
    else if botCount ≤ 1 ∧ avgPerformance > 0 then ("underexploited", 9/10)
    else if (botCount : ℚ) ≥ (members.length : ℚ) * (6/10) ∧ avgPerformance < 0 then
      ("overcrowded", 1/10)
    else if (botCount : ℚ) ≥ (members.length : ℚ) * (6/10) then ("overcrowded", 3/10)
    else if avgPerformance > 0 then ("underexploited", 7/10)
    else ("balanced", 5/10)
  { archetypeId := archId
    regime := regime
    classification := cls.1
    botCount := botCount
    avgPerformance := pyRound 6 avgPerformance
    totalTrades := totalTrades
    opportunityScore := pyRound 4 cls.2 }

/-- Output dict of `NicheDiscovery.analyze`; the count fields are `none`
for the empty-archetypes early return, whose dict lacks those keys. -/
structure NicheResult where
  cells : List NicheCell
  totalCells : Option ℕ
  underexploited : Option ℕ
  overcrowded : Option ℕ
  unexplored : Option ℕ
  balanced : Option ℕ

/-- `NicheDiscovery.analyze` (the unused `total_bots` of line 19 is not
modelled). -/
def analyze (archetypes : List ArchetypePayload)
    (perf : List (String × List (String × RegimePerf))) : NicheResult :=
  if archetypes.isEmpty then
    { cells := [], totalCells := none, underexploited := none,
      overcrowded := none, unexplored := none, balanced := none }
  else
    let cells := archetypes.flatMap fun a =>
      REGIMES.map fun regime =>
        analyzeCell perf (a.id.getD 0) (a.memberBotIds.getD []) regime
    let sorted := cells.mergeSort fun c1 c2 =>
      decide (c2.opportunityScore ≤ c1.opportunityScore)
    { cells := sorted
      totalCells := some sorted.length
      underexploited := some (sorted.countP fun c => c.classification == "underexploited")
      overcrowded := some (sorted.countP fun c => c.classification == "overcrowded")
      unexplored := some (sorted.countP fun c => c.classification == "unexplored")
      balanced := some (sorted.countP fun c => c.classification == "balanced") }

/-- A cell with zero participating bots and zero trades is classified
`unexplored` with raw opportunity score `0.8` (rule 1 of the decision
tree fires first). -/
theorem analyzeCell_unexplored (perf : List (String × List (String × RegimePerf)))
    (archId : ℤ) (members : List String) (regime : String)
    (hbc : (analyzeCell perf archId members regime).botCount = 0)
    (htt : (analyzeCell perf archId members regime).totalTrades = 0) :
    (analyzeCell perf archId members regime).classification = "unexplored" ∧
    (analyzeCell perf archId members regime).opportunityScore = 8/10 := by
  simp only [analyzeCell] at hbc htt ⊢
  rw [if_pos ⟨hbc, htt⟩]
  refine ⟨rfl, ?_⟩
  norm_num [pyRound, rhe]

/-- C5: with a non-empty archetype list, niche discovery reports
`totalCells = 8 × archetypeCount`, and every emitted cell with zero
participating bots and zero trades is `unexplored` with opportunity
score 0.8. -/
theorem niches_cells (archetypes : List ArchetypePayload)
    (perf : List (String × List (String × RegimePerf)))
    (h : archetypes ≠ []) :
    (analyze archetypes perf).totalCells = some (8 * archetypes.length) ∧
    ∀ cell ∈ (analyze archetypes perf).cells,
      cell.botCount = 0 ∧ cell.totalTrades = 0 →
        cell.classification = "unexplored" ∧ cell.opportunityScore = 8/10 := by
  have hne : ¬ archetypes.isEmpty := by simpa [List.isEmpty_iff] using h
  simp only [analyze, hne, Bool.false_eq_true, if_false]
  constructor
  · have hperm := List.mergeSort_perm
      (archetypes.flatMap fun a => REGIMES.map fun regime =>
        analyzeCell perf (a.id.getD 0) (a.memberBotIds.getD []) regime)
      (fun c1 c2 => decide (c2.opportunityScore ≤ c1.opportunityScore))
    rw [hperm.length_eq, List.length_flatMap]
    have hconst : List.map (List.length ∘ fun a : ArchetypePayload => REGIMES.map fun regime =>
        analyzeCell perf (a.id.getD 0) (a.memberBotIds.getD []) regime) archetypes =
        List.map (fun _ => 8) archetypes := by
      apply List.map_congr_left
      intro a _
      simp [Function.comp, REGIMES]
    rw [hconst, List.map_const']
    simp [List.sum_replicate, smul_eq_mul, Nat.mul_comm]
  · intro cell hmem hc
    have hperm := List.mergeSort_perm
      (archetypes.flatMap fun a => REGIMES.map fun regime =>
        analyzeCell perf (a.id.getD 0) (a.memberBotIds.getD []) regime)
      (fun c1 c2 => decide (c2.opportunityScore ≤ c1.opportunityScore))
    rw [hperm.mem_iff, List.mem_flatMap] at hmem
    obtain ⟨a, _, hmem2⟩ := hmem
    rw [List.mem_map] at hmem2
    obtain ⟨regime, _, rfl⟩ := hmem2
    exact analyzeCell_unexplored perf _ _ regime hc.1 hc.2

/-- C5 witness: the cell invariants discharged on one archetype with no
members and an empty performance map. -/
theorem niches_cells_witness :
    (analyze [⟨some 1, some []⟩] []).totalCells = some 8 ∧
    ∀ cell ∈ (analyze [⟨some 1, some []⟩] []).cells,
      cell.botCount = 0 ∧ cell.totalTrades = 0 →
        cell.classification = "unexplored" ∧ cell.opportunityScore = 8/10 := by
  have h := niches_cells [⟨some 1, some []⟩] [] (by simp)
  exact ⟨by simpa using h.1, h.2⟩

end Niche

namespace Crowding

/-- Insertion-order deduplication: the key order of a Python dict built by
repeated assignment (first occurrence wins the position). -/
def firstOccur {α : Type} [BEq α] (l : List α) : List α :=
  l.foldl (fun acc a => if acc.any (· == a) then acc else acc ++ [a]) []

/-- Modelled from the library contract of
`scipy.stats.binomtest(k, n, 0.5, alternative='greater').pvalue`: the exact
one-sided tail `P(X ≥ k)` for `X ~ Binomial(n, 1/2)`. -/
def binomPValueGreater (k n : ℕ) : ℚ :=
  ((((List.range (n + 1)).filter fun i => k ≤ i).map fun i => (n.choose i : ℚ)).sum) / 2 ^ n

/-- Payload of a `competitive:crowding` request (`threshold` is the JSON
key `thresholdRatio`). -/
structure CrowdingPayload where
  recentTrades : List Trade
  windowMinutes : Option ℚ
  threshold : Option ℚ
  totalBots : Option ℚ

/-- One alert dict of `CrowdingDetector.detect` (`convergence` is the JSON
key `convergenceRatio`; `botIds` are the raw `t.get('botId')` values). -/
structure Alert where
  symbol : String
  direction : String
  convergence : ℚ
  botIds : List (Option String)
  pValue : ℚ
  severity : String
  windowMinutes : ℚ
  activeBots : ℕ
  totalBots : ℚ
  timestamp : ℚ
deriving Repr, DecidableEq

/-- Output dict of `CrowdingDetector.detect`; `alertCount` is `none` for
the empty-input early return, whose dict lacks the key. -/
structure CrowdingResult where
  alerts : List Alert
  alertCount : Option ℕ
  timestamp : ℚ
deriving Repr, DecidableEq

/-- Severity rank used for the final sort (`severity_order.get(s, 4)`). -/
def severityOrder (s : String) : ℕ :=
  if s = "critical" then 0 else if s = "high" then 1
  else if s = "medium" then 2 else if s = "low" then 3 else 4

/-- Per-symbol body of the loop of `CrowdingDetector.detect` (lines 34–83):
deduplicate to the latest trade per bot, and emit an alert for each of
buy/sell that meets the threshold and the significance test. -/
def detectSymbol (windowMinutes threshold totalBots now : ℚ)
    (symbol : String) (trades : List Trade) : List Alert :=
  let sortedTrades := trades.mergeSort fun a b =>
    decide (a.timestamp.getD 0 ≤ b.timestamp.getD 0)
  let botKeys := firstOccur (sortedTrades.map fun t => t.botId.getD "")
  let botTrades := botKeys.filterMap fun b =>
    (sortedTrades.filter fun t => t.botId.getD "" == b).getLast?
  let nActive := botTrades.length
  if nActive < 3 then []
  else
    let buyBots := (botTrades.filter fun t => t.direction == some "buy").map
      fun t => t.botId
    let sellBots := (botTrades.filter fun t => t.direction == some "sell").map
      fun t => t.botId
    [("buy", buyBots), ("sell", sellBots)].flatMap fun pr =>
      let k := pr.2.length
      let share := (k : ℚ) / (nActive : ℚ)
      if share < threshold then []
      else
        let pv := binomPValueGreater k nActive
        if (5/100 : ℚ) ≤ pv then []
        else
          let severity :=
            if share ≥ 9/10 then "critical"
            else if share ≥ 8/10 then "high"
            else if share ≥ 7/10 then "medium"
            else "low"
          [{ symbol := symbol, direction := pr.1, convergence := pyRound 4 share,
             botIds := pr.2, pValue := pyRound 6 pv, severity := severity,
             windowMinutes := windowMinutes, activeBots := nActive,
             totalBots := totalBots, timestamp := now }]

/-- `CrowdingDetector.detect`. -/
def detect (payload : CrowdingPayload) : CrowdingResult :=
  let recentTrades := payload.recentTrades
  let windowMinutes := payload.windowMinutes.getD 5
  let threshold := payload.threshold.getD (6/10)
  let totalBots := payload.totalBots.getD 21
  if recentTrades.isEmpty then { alerts := [], alertCount := none, timestamp := 0 }
  else
    let now := ((recentTrades.map fun t => t.timestamp.getD 0).max?).getD 0
    let windowStart := now - windowMinutes * 60 * 1000
    let windowed := recentTrades.filter fun t => windowStart ≤ t.timestamp.getD 0
    let symbols := firstOccur (windowed.map fun t => t.symbol.getD "UNKNOWN")
    let alerts := symbols.flatMap fun symbol =>
      detectSymbol windowMinutes threshold totalBots now symbol
        (windowed.filter fun t => t.symbol.getD "UNKNOWN" == symbol)
    let sorted := alerts.mergeSort fun a b =>
      decide (severityOrder a.severity ≤ severityOrder b.severity)
    { alerts := sorted, alertCount := some sorted.length, timestamp := now }

/-- One trade of the C4 scenario: bot `i` trades symbol `BTC` at the
common timestamp, buying for `i < 15` and selling otherwise. -/
def cexCrowdTrade (i : ℕ) : Trade :=
  { Trade.empty with
      id := some (toString i),
      botId := some (toString i),
      symbol := some "BTC",
      direction := some (if i < 15 then "buy" else "sell"),
      timestamp := some 1000000 }

/-- The C4 scenario: 21 bots, one in-window trade each on symbol `BTC`,
bots 0–14 buying and bots 15–20 selling, defaults for all parameters. -/
def cexCrowdingPayload : CrowdingPayload :=
  { recentTrades := (List.range 21).map cexCrowdTrade,
    windowMinutes := none, threshold := none, totalBots := none }

/-- The single alert the detector emits on `cexCrowdingPayload`. -/
def cexAlert : Alert :=
  { symbol := "BTC", direction := "buy", convergence := 7143/10000,
    botIds := (List.range 15).map fun i => some (toString i),
    pValue := 39177/1000000, severity := "medium", windowMinutes := 5,
    activeBots := 21, totalBots := 21, timestamp := 1000000 }

set_option maxRecDepth 100000 in
unseal Rat.add Rat.sub Rat.mul Rat.inv Rat.ofScientific List.mergeSort List.merge in
/-- C4: on the 21-bot scenario with 15 buys the detector emits exactly one
alert — a `buy` alert for the symbol with `convergenceRatio = 0.7143`
(15/21 rounded to 4 decimals), exact one-sided binomial p-value below
0.05, severity `medium`, and 21 ≥ 3 active bots. -/
theorem crowding_scenario :
    (detect cexCrowdingPayload).alerts = [cexAlert] ∧
    cexAlert.symbol = "BTC" ∧ cexAlert.direction = "buy" ∧
    cexAlert.convergence = pyRound 4 (15/21) ∧
    cexAlert.convergence = 7143/10000 ∧
    cexAlert.severity = "medium" ∧
    cexAlert.pValue < 5/100 ∧
    binomPValueGreater 15 21 < 5/100 ∧
    3 ≤ cexAlert.activeBots := by decide

end Crowding

namespace Engine

/-- A request dict (`rtype` is the JSON key `type`); `P` is the payload
type, opaque to the dispatcher. -/
structure Request (P : Type) where
  id : Option String
  rtype : Option String
  payload : Option P

/-- A response dict (`rtype` is the JSON key `type`); `error := none`
models the absence of the `error` key in success responses.
`processingTimeMs` (wall-clock time) is not modelled and reported as 0. -/
structure Response (R : Type) where
  id : Option String
  rtype : String
  success : Bool
  payload : Option R
  error : Option String
  processingTimeMs : ℚ

/-- The request types recognized by the `if/elif` chain of
`handle_request`. -/
def knownTypes : List String :=
  ["health:ping", "shapley:batch", "patterns:extract_features",
   "patterns:cluster", "competitive:train", "competitive:predict",
   "competitive:predict_all", "competitive:crowding", "competitive:niches",
   "fingerprint:regime_matrix"]

/-- `engine.handle_request`.  The component dispatch (every branch of the
chain except the inline `health:ping`) is abstracted as
`run type payload`, returning `Except.error msg` when the handler raises an
exception with message `msg` — the `except Exception` boundary of the
source.  `health:ping` builds its result inline from values that cannot
raise, modelled by `pingResult`. -/
def handleRequest {P R : Type} (emptyPayload : P) (pingResult : R)
    (run : String → P → Except String R) (req : Request P) : Response R :=
  let reqType := req.rtype.getD ""
  let payload := req.payload.getD emptyPayload
  if reqType ∈ knownTypes then
    match if reqType = "health:ping" then Except.ok pingResult else run reqType payload with
    | .ok result =>
        { id := req.id, rtype := reqType ++ ":result", success := true,
          payload := some result, error := none, processingTimeMs := 0 }
    | .error e =>
        { id := req.id, rtype := reqType ++ ":error", success := false,
          payload := none, error := some e, processingTimeMs := 0 }
  else
    { id := req.id, rtype := reqType ++ ":error", success := false,
      payload := none, error := some ("Unknown request type: " ++ reqType),
      processingTimeMs := 0 }

/-- The response loop of `main`: one response per request, in order. -/
def processAll {P R : Type} (emptyPayload : P) (pingResult : R)
    (run : String → P → Except String R) (reqs : List (Request P)) :
    List (Response R) :=
  reqs.map (handleRequest emptyPayload pingResult run)

/-- C8: `handle_request` is total (never raises) and always carries the
request's `id`; on an unrecognized type, or when a handler raises, the
response has type `<type>:error`, `success = false`, a present (non-null)
error string and a null payload; and the loop emits one response per
request regardless. -/
theorem handleRequest_envelope {P R : Type} (emptyPayload : P) (pingResult : R)
    (run : String → P → Except String R) (req : Request P) :
    (handleRequest emptyPayload pingResult run req).id = req.id ∧
    ((req.rtype.getD "" ∉ knownTypes ∨
      ∃ e, run (req.rtype.getD "") (req.payload.getD emptyPayload) = .error e ∧
        req.rtype.getD "" ≠ "health:ping") →
      (handleRequest emptyPayload pingResult run req).rtype =
          req.rtype.getD "" ++ ":error" ∧
      (handleRequest emptyPayload pingResult run req).success = false ∧
      (∃ e, (handleRequest emptyPayload pingResult run req).error = some e) ∧
      (handleRequest emptyPayload pingResult run req).payload = none) ∧
    ∀ reqs : List (Request P),
      (processAll emptyPayload pingResult run reqs).length = reqs.length := by
  refine ⟨?_, ?_, fun reqs => by simp [processAll]⟩
  · simp only [handleRequest]
    split_ifs with hk hp
    · rfl
    · cases run (req.rtype.getD "") (req.payload.getD emptyPayload) <;> rfl
    · rfl
  · intro hcase
    simp only [handleRequest]
    split_ifs with hk hp
    · exfalso
      rcases hcase with hunk | ⟨e, _, hne⟩
      · exact hunk hk
      · exact hne hp
    · rcases hcase with hunk | ⟨e, herr, _⟩
      · exact absurd hk hunk
      · rw [herr]
        exact ⟨rfl, rfl, ⟨e, rfl⟩, rfl⟩
    · exact ⟨rfl, rfl, ⟨_, rfl⟩, rfl⟩

/-- C8 witness: the error-envelope consequences discharged on a concrete
unknown-type request. -/
theorem handleRequest_envelope_witness :
    (handleRequest (P := Unit) (R := Unit) () ()
        (fun _ _ => Except.error "boom") ⟨some "1", some "bogus", none⟩).success
        = false ∧
    (handleRequest (P := Unit) (R := Unit) () ()
        (fun _ _ => Except.error "boom") ⟨some "1", some "bogus", none⟩).rtype
        = "bogus:error" ∧
    (handleRequest (P := Unit) (R := Unit) () ()
        (fun _ _ => Except.error "boom") ⟨some "1", some "bogus", none⟩).id
        = some "1" := by
  have h := handleRequest_envelope (P := Unit) (R := Unit) () ()
    (fun _ _ => Except.error "boom") ⟨some "1", some "bogus", none⟩
  have hcase := h.2.1 (Or.inl (by decide))
  exact ⟨hcase.2.1, hcase.1, h.1⟩

end Engine

namespace Patterns

/-- `matrix.mean(axis=0)` for a rectangular row-major matrix. -/
def colMeans (matrix : List (List ℚ)) : List ℚ :=
  (List.range (matrix.headD []).length).map fun j =>
    npMean (matrix.map fun row => row.getD j 0)

/-- `matrix.std(axis=0)`; `sq` is the (opaque) square root applied by
numpy to each column's population variance. -/
def colStds (sq : ℚ → ℚ) (matrix : List (List ℚ)) : List ℚ :=
  (List.range (matrix.headD []).length).map fun j =>
    sq (npMean (matrix.map fun row =>
      (row.getD j 0 - npMean (matrix.map fun r => r.getD j 0)) ^ 2))

/-- The z-score standardization of `UMAPReducer.reduce` (lines 27–30),
with zero stds floored to 1. -/
def standardize (sq : ℚ → ℚ) (matrix : List (List ℚ)) : List (List ℚ) :=
  let means := colMeans matrix
  let stds := (colStds sq matrix).map fun s => if s = 0 then 1 else s
  matrix.map fun row => ((row.zip means).zip stds).map fun p => (p.1.1 - p.1.2) / p.2

/-- Output dict of `UMAPReducer.reduce`; `method` is `none` except for the
PCA fallback, whose dict adds `method: 'pca_fallback'`. -/
structure ReduceResult where
  embeddings : List (String × List ℚ)
  botIds : List String
  dimensions : ℕ
  method : Option String

/-- `UMAPReducer._pca_fallback`.  `pcaFit k m` is the (opaque)
`PCA(n_components=k, random_state=42).fit_transform(m)`; its shape contract
is a hypothesis of the theorems. -/
def pcaFallback (pcaFit : ℕ → List (List ℚ) → List (List ℚ))
    (botIds : List String) (matrix : List (List ℚ)) (targetDim : ℕ) :
    ReduceResult :=
  let nComponents := min targetDim (min matrix.length (matrix.headD []).length)
  let embedded := pcaFit nComponents matrix
  let width := (embedded.headD []).length
  let padded := if width < targetDim then
    embedded.map fun row => row ++ List.replicate (targetDim - width) 0
  else embedded
  { embeddings := botIds.zip padded, botIds := botIds,
    dimensions := targetDim, method := some "pca_fallback" }

/-- `UMAPReducer.reduce`.  `umapFit k nn md m` is the (opaque)
`UMAP(n_components=k, n_neighbors=nn, min_dist=md, metric='euclidean',
random_state=42).fit_transform(m)`; `hasUMAP` is the import-availability
flag. -/
def reduce (hasUMAP : Bool) (sq : ℚ → ℚ)
    (umapFit : ℕ → ℕ → ℚ → List (List ℚ) → List (List ℚ))
    (pcaFit : ℕ → List (List ℚ) → List (List ℚ))
    (features : List (String × List ℚ)) (nNeighbors : ℕ) (minDist : ℚ) :
    ReduceResult :=
  if features.isEmpty then
    { embeddings := [], botIds := [], dimensions := 5, method := none }
  else
    let botIds := (features.map Prod.fst).mergeSort fun a b => decide (a ≤ b)
    let matrix := botIds.map fun bid =>
      ((features.find? fun p => p.1 == bid).map Prod.snd).getD []
    let matrixNorm := standardize sq matrix
    let nSamples := botIds.length
    let targetDim := 5
    if nSamples < 4 then pcaFallback pcaFit botIds matrixNorm targetDim
    else if !hasUMAP then pcaFallback pcaFit botIds matrixNorm targetDim
    else
      let actualNeighbors := min nNeighbors (nSamples - 1)
      let embedded := umapFit targetDim actualNeighbors minDist matrixNorm
      { embeddings := botIds.zip embedded, botIds := botIds,
        dimensions := targetDim, method := none }

/-- Shape contract of the PCA library: `fit_transform` returns one row per
input row, each with exactly `n_components` entries. -/
def PcaContract (pcaFit : ℕ → List (List ℚ) → List (List ℚ)) : Prop :=
  ∀ k m, (pcaFit k m).length = m.length ∧ ∀ row ∈ pcaFit k m, row.length = k

/-- Shape contract of the UMAP library: `fit_transform` returns one row
per input row, each with exactly `n_components` entries. -/
def UmapContract (umapFit : ℕ → ℕ → ℚ → List (List ℚ) → List (List ℚ)) : Prop :=
  ∀ k nn md m, (umapFit k nn md m).length = m.length ∧
    ∀ row ∈ umapFit k nn md m, row.length = k

/-- With the PCA shape contract, every embedding of `_pca_fallback` on a
non-empty matrix has length exactly `targetDim` (zero-padding included). -/
theorem pcaFallback_dim (pcaFit : ℕ → List (List ℚ) → List (List ℚ))
    (hpca : PcaContract pcaFit) (botIds : List String)
    (matrix : List (List ℚ)) (targetDim : ℕ) (hm : matrix ≠ []) :
    ∀ p ∈ (pcaFallback pcaFit botIds matrix targetDim).embeddings,
      p.2.length = targetDim := by
  intro p hp
  simp only [pcaFallback] at hp
  have hp2 := (List.of_mem_zip hp).2
  obtain ⟨hlen, hrows⟩ := hpca (min targetDim (min matrix.length (matrix.headD []).length)) matrix
  set k := min targetDim (min matrix.length (matrix.headD []).length) with hk
  have hkle : k ≤ targetDim := min_le_left _ _
  have hembne : pcaFit k matrix ≠ [] := by
    intro h0
    exact hm (List.length_eq_zero.mp (by rw [← hlen, h0]; rfl))
  have hwidth : ((pcaFit k matrix).headD []).length = k := by
    cases hemb : pcaFit k matrix with
    | nil => exact absurd hemb hembne
    | cons a t =>
        simp only [List.headD_cons]
        exact hrows a (by rw [hemb]; exact List.mem_cons_self a t)
  rw [hwidth] at hp2
  split_ifs at hp2 with hlt
  · rw [List.mem_map] at hp2
    obtain ⟨row, hrow, heq⟩ := hp2
    rw [← heq, List.length_append, List.length_replicate, hrows row hrow]
    omega
  · have := hrows _ hp2
    omega

/-- Standardization is a row map, so it preserves non-emptiness. -/
theorem standardize_ne_nil (sq : ℚ → ℚ) (matrix : List (List ℚ))
    (h : matrix ≠ []) : standardize sq matrix ≠ [] := by
  simp only [standardize]
  intro h0
  exact h (List.map_eq_nil_iff.mp h0)

/-- C6: for every non-empty reduction input — any bot count, any feature
count, either availability of UMAP, and any library behaviour satisfying
the shape contracts — every embedding vector in the reducer's output has
length exactly 5, and the reported dimensionality is 5. -/
theorem reduce_dim_five (hasUMAP : Bool) (sq : ℚ → ℚ)
    (umapFit : ℕ → ℕ → ℚ → List (List ℚ) → List (List ℚ))
    (pcaFit : ℕ → List (List ℚ) → List (List ℚ))
    (features : List (String × List ℚ)) (nNeighbors : ℕ) (minDist : ℚ)
    (humap : UmapContract umapFit) (hpca : PcaContract pcaFit)
    (hne : features ≠ []) :
    (reduce hasUMAP sq umapFit pcaFit features nNeighbors minDist).dimensions = 5 ∧
    ∀ p ∈ (reduce hasUMAP sq umapFit pcaFit features nNeighbors minDist).embeddings,
      p.2.length = 5 := by
  have hfe : ¬ features.isEmpty := by simpa [List.isEmpty_iff] using hne
  have hbotlen : ((features.map Prod.fst).mergeSort fun a b => decide (a ≤ b)).length =
      features.length := by
    rw [(List.mergeSort_perm (features.map Prod.fst) _).length_eq, List.length_map]
  have hmatne : (((features.map Prod.fst).mergeSort fun a b => decide (a ≤ b)).map fun bid =>
      ((features.find? fun p => p.1 == bid).map Prod.snd).getD []) ≠ [] := by
    intro h0
    have := List.length_eq_zero.mpr h0
    rw [List.length_map, hbotlen] at this
    exact hne (List.length_eq_zero.mp this)
  simp only [reduce, hfe, Bool.false_eq_true, if_false]
  split_ifs with h4 hu
  · exact ⟨rfl, pcaFallback_dim pcaFit hpca _ _ 5 (standardize_ne_nil sq _ hmatne)⟩
  · exact ⟨rfl, pcaFallback_dim pcaFit hpca _ _ 5 (standardize_ne_nil sq _ hmatne)⟩
  · refine ⟨rfl, fun p hp => ?_⟩
    have hp2 := (List.of_mem_zip hp).2
    exact (humap 5 _ minDist _).2 p.2 hp2

/-- C6 witness: the dimension-5 invariant discharged on a one-bot input
with stub libraries satisfying the contracts. -/
theorem reduce_dim_five_witness :
    (reduce true id (fun k _ _ m => m.map fun _ => List.replicate k 0)
        (fun k m => m.map fun _ => List.replicate k 0)
        [("a", [1, 2])] 5 (1/10)).dimensions = 5 ∧
    ∀ p ∈ (reduce true id (fun k _ _ m => m.map fun _ => List.replicate k 0)
        (fun k m => m.map fun _ => List.replicate k 0)
        [("a", [1, 2])] 5 (1/10)).embeddings, p.2.length = 5 :=
  reduce_dim_five true id _ _ [("a", [1, 2])] 5 (1/10)
    (fun k nn md m => ⟨by simp, fun row hrow => by
      rw [List.mem_map] at hrow; obtain ⟨_, _, rfl⟩ := hrow; simp⟩)
    (fun k m => ⟨by simp, fun row hrow => by
      rw [List.mem_map] at hrow; obtain ⟨_, _, rfl⟩ := hrow; simp⟩)
    (by simp)

/-- `np.mean` tracked for NaN: `none` is the NaN of a mean over an empty
list. -/
def omean (l : List ℚ) : Option ℚ :=
  if l.isEmpty then none else some (npMean l)

/-- `np.var` (population variance) tracked for NaN. -/
def ovar (l : List ℚ) : Option ℚ :=
  if l.isEmpty then none else some (npMean (l.map fun x => (x - npMean l) ^ 2))

/-- `np.std` tracked for NaN; `sq` is the opaque square root, applied to a
variance, which is never negative. -/
def ostd (sq : ℚ → ℚ) (l : List ℚ) : Option ℚ := (ovar l).map sq

/-- `np.cumsum` with running total `acc`. -/
def cumsumFrom (acc : ℚ) : List ℚ → List ℚ
  | [] => []
  | x :: t => (acc + x) :: cumsumFrom (acc + x) t

/-- `np.cumsum`. -/
def cumsum (l : List ℚ) : List ℚ := cumsumFrom 0 l

/-- `np.maximum.accumulate` continuation with running maximum `acc`. -/
def accMax (acc : ℚ) : List ℚ → List ℚ
  | [] => []
  | x :: t => max acc x :: accMax (max acc x) t

/-- `np.maximum.accumulate`. -/
def runMax : List ℚ → List ℚ
  | [] => []
  | x :: t => x :: accMax x t

/-- `FeatureExtractor._extract_bot`: the 20 features, each an
`Option ℚ` that is `none` exactly when the Python computation would
produce a NaN or raise (empty-list mean/max or zero division). -/
def extractBot (sq : ℚ → ℚ) (trades : List Trade) : List (Option ℚ) :=
  let n := trades.length
  let timestamps := trades.map fun t => t.timestamp.getD 0
  let directions := trades.map fun t => t.direction.getD "buy"
  let quantities := trades.map fun t => t.quantity.getD 1
  let regimes := trades.map fun t => t.regime.getD "RANGING"
  let pnls := trades.map fun t => t.pnl.getD 0
  let holdingPeriods := trades.map fun t => t.holdingPeriodMinutes.getD 0
  let confidences := trades.filterMap fun t => t.confidence
  -- 1. trade frequency
  let timeSpanHours : Option ℚ :=
    if n > 1 then
      match timestamps.max?, timestamps.min? with
      | some mx, some mn => some ((mx - mn) / 3600000)
      | _, _ => none
    else some 1
  let tradeFreq := timeSpanHours.map fun span => (n : ℚ) / max span (1/1000)
  -- 2./3. holding-period stats
  let validHp := holdingPeriods.filter fun h => decide (h > 0)
  let avgHolding := if validHp.isEmpty then some (0:ℚ) else omean validHp
  let hpStd := if validHp.length > 1 then ostd sq validHp else some 0
  -- 4. direction bias
  let buyCount := (directions.filter fun d => d == "buy").length
  let directionBias : Option ℚ :=
    if n = 0 then none else some ((2 * buyCount : ℚ) / n - 1)
  -- 5. direction switch rate
  let switches := ((directions.zip (directions.drop 1)).filter fun p => p.1 != p.2).length
  let switchRate : Option ℚ := some ((switches : ℚ) / (max (n - 1) 1 : ℕ))
  -- 6./7. position size stats
  let avgSize := omean quantities
  let sizeVar := if n > 1 then ovar quantities else some 0
  -- 8.–11. regime affinities
  let regimeFrac := fun (r : String) =>
    if n = 0 then none
    else some (((regimes.filter fun x => x == r).length : ℚ) / n)
  -- 12.–15. indicator entry patterns
  let inds := trades.filterMap fun t => t.indicators
  let avgRsi := if inds.isEmpty then some (50:ℚ)
    else omean (inds.map fun ind => ind.rsi14.getD 50)
  let avgBb := if inds.isEmpty then some ((1:ℚ)/2)
    else omean (inds.map fun ind => ind.bbPosition.getD (1/2))
  let avgMacd := if inds.isEmpty then some (0:ℚ)
    else omean (inds.map fun ind => ind.macdHist.getD 0)
  let avgTrend := if inds.isEmpty then some (0:ℚ)
    else omean (inds.map fun ind => ind.trendStrength.getD 0)
  -- 16. win rate
  let tradesWithPnl := pnls.filter fun p => decide (p ≠ 0)
  let wins := (tradesWithPnl.filter fun p => decide (p > 0)).length
  let winRate : Option ℚ := some ((wins : ℚ) / (max tradesWithPnl.length 1 : ℕ))
  -- 17. average return
  let avgReturn := if pnls.isEmpty then some (0:ℚ) else omean pnls
  -- 18. Sharpe proxy
  let sharpeProxy : Option ℚ :=
    if pnls.length > 1 then
      avgReturn.bind fun avg => (ostd sq pnls).map fun stdReturn =>
        if stdReturn > 0 then avg / stdReturn else 0
    else some 0
  -- 19. max drawdown
  let cumPnl := cumsum pnls
  let peaks := runMax cumPnl
  let drawdowns := (peaks.zip cumPnl).map fun p => p.1 - p.2
  let maxDd := if drawdowns.isEmpty then some (0:ℚ) else drawdowns.max?
  -- 20. average confidence
  let avgConf := if confidences.isEmpty then some ((1:ℚ)/2) else omean confidences
  [tradeFreq, avgHolding, hpStd, directionBias, switchRate, avgSize, sizeVar,
   regimeFrac "TRENDING_UP", regimeFrac "TRENDING_DOWN", regimeFrac "RANGING",
   regimeFrac "VOLATILE", avgRsi, avgBb, avgMacd, avgTrend, winRate,
   avgReturn, sharpeProxy, maxDd, avgConf]

/-- Output dict of `FeatureExtractor.extract`. -/
structure ExtractResult where
  features : List (String × List (Option ℚ))
  botCount : ℕ
  dimensions : ℕ

/-- `FeatureExtractor.extract`: bots with fewer than 3 trades are
silently skipped. -/
def extract (sq : ℚ → ℚ) (botTrades : List (String × List Trade)) :
    ExtractResult :=
  let features := botTrades.filterMap fun p =>
    if p.2.length < 3 then none else some (p.1, extractBot sq p.2)
  { features := features, botCount := features.length, dimensions := 20 }

theorem omean_isSome {l : List ℚ} (h : ¬ l.isEmpty) : (omean l).isSome := by
  simp [omean, h]

theorem ovar_isSome {l : List ℚ} (h : ¬ l.isEmpty) : (ovar l).isSome := by
  simp [ovar, h]

theorem ostd_isSome (sq : ℚ → ℚ) {l : List ℚ} (h : ¬ l.isEmpty) :
    (ostd sq l).isSome := by
  obtain ⟨v, hv⟩ := Option.isSome_iff_exists.mp (ovar_isSome h)
  simp [ostd, hv]

/-- Every entry `_extract_bot` produces for a bot with at least 3 trades is
a finite number (no NaN path is reachable), and the vector has length 20. -/
theorem extractBot_wellformed (sq : ℚ → ℚ) (trades : List Trade)
    (h3 : 3 ≤ trades.length) :
    (extractBot sq trades).length = 20 ∧
    ∀ e ∈ extractBot sq trades, e.isSome := by
  have hn0 : trades.length ≠ 0 := by omega
  have hne : trades ≠ [] := fun h0 => hn0 (by rw [h0]; rfl)
  constructor
  · simp [extractBot]
  intro e he
  simp only [extractBot, List.mem_cons, List.not_mem_nil, or_false] at he
  have hmapne : ∀ f : Trade → ℚ, ¬ (trades.map f).isEmpty := fun f => by
    simp [List.isEmpty_iff, hne]
  rcases he with rfl|rfl|rfl|rfl|rfl|rfl|rfl|rfl|rfl|rfl|rfl|rfl|rfl|rfl|rfl|rfl|rfl|rfl|rfl|rfl
  · -- tradeFreq
    split_ifs with h1
    · have hmax : (trades.map fun t => t.timestamp.getD 0).max?.isSome := by
        rw [Option.isSome_iff_ne_none]
        intro h0
        exact hne (by simpa using List.max?_eq_none_iff.mp h0)
      have hmin : (trades.map fun t => t.timestamp.getD 0).min?.isSome := by
        rw [Option.isSome_iff_ne_none]
        intro h0
        exact hne (by simpa using List.min?_eq_none_iff.mp h0)
      obtain ⟨mx, hmx⟩ := Option.isSome_iff_exists.mp hmax
      obtain ⟨mn, hmn⟩ := Option.isSome_iff_exists.mp hmin
      rw [hmx, hmn]
      rfl
    · rfl
  · split_ifs with h1
    · rfl
    · exact omean_isSome h1
  · split_ifs with h1
    · exact ostd_isSome sq (by
        intro h0
        rw [List.isEmpty_iff] at h0
        rw [h0] at h1
        simp at h1)
    · rfl
  · simp [hn0]
  · rfl
  · exact omean_isSome (hmapne _)
  · split_ifs with h1
    · exact ovar_isSome (hmapne _)
    · rfl
  · simp [hn0]
  · simp [hn0]
  · simp [hn0]
  · simp [hn0]
  · split_ifs with h1
    · rfl
    · exact omean_isSome (by simpa using h1)
  · split_ifs with h1
    · rfl
    · exact omean_isSome (by simpa using h1)
  · split_ifs with h1
    · rfl
    · exact omean_isSome (by simpa using h1)
  · split_ifs with h1
    · rfl
    · exact omean_isSome (by simpa using h1)
  · rfl
  · split_ifs with h1
    · rfl
    · exact omean_isSome h1
  · split_ifs with h1 h2
    · exfalso
      rw [List.isEmpty_iff] at h2
      rw [h2] at h1
      simp at h1
    · obtain ⟨avg, havg⟩ := Option.isSome_iff_exists.mp
        (omean_isSome (l := trades.map fun t => t.pnl.getD 0) h2)
      obtain ⟨s, hs⟩ := Option.isSome_iff_exists.mp
        (ostd_isSome sq (l := trades.map fun t => t.pnl.getD 0) h2)
      simp [havg, hs]
    · rfl
  · split_ifs with h1
    · rfl
    · rw [Option.isSome_iff_ne_none]
      intro h0
      rw [List.max?_eq_none_iff] at h0
      rw [h0] at h1
      simp at h1
  · split_ifs with h1
    · rfl
    · exact omean_isSome h1

/-- C2: every feature vector emitted by the extractor (one per bot with at
least 3 trades, for every extraction input and library sqrt) has length
exactly 20 and contains no NaN/Infinity; and when no trade of a bot has
(truthy) indicator data, features 12–15 are the neutral defaults
50, 0.5, 0, 0. -/
theorem extract_feature_vectors (sq : ℚ → ℚ)
    (botTrades : List (String × List Trade)) :
    (∀ p ∈ (extract sq botTrades).features,
      p.2.length = 20 ∧ ∀ e ∈ p.2, e.isSome) ∧
    ∀ trades : List Trade, (∀ t ∈ trades, t.indicators = none) →
      ((extractBot sq trades).drop 11).take 4 =
        [some 50, some (1/2), some 0, some 0] := by
  constructor
  · intro p hp
    simp only [extract, List.mem_filterMap] at hp
    obtain ⟨q, _, hq⟩ := hp
    split_ifs at hq with hlen
    obtain rfl := Option.some_inj.mp hq
    exact extractBot_wellformed sq q.2 (by omega)
  · intro trades hind
    have hinds : (trades.filterMap fun t => t.indicators) = [] :=
      List.filterMap_eq_nil_iff.mpr hind
    simp only [extractBot, hinds, List.isEmpty_nil, if_true]
    rfl

/-- C2 witness: the vector invariants discharged on a one-bot, three-trade
input. -/
theorem extract_feature_vectors_witness :
    (∀ p ∈ (extract id [("a", [Trade.empty, Trade.empty, Trade.empty])]).features,
      p.2.length = 20 ∧ ∀ e ∈ p.2, e.isSome) ∧
    ((extractBot id [Trade.empty, Trade.empty, Trade.empty]).drop 11).take 4 =
      [some 50, some (1/2), some 0, some 0] := by
  obtain ⟨h1, h2⟩ := extract_feature_vectors id [("a", [Trade.empty, Trade.empty, Trade.empty])]
  exact ⟨h1, h2 [Trade.empty, Trade.empty, Trade.empty] (by simp [Trade.empty])⟩

/-- One per-bot assignment dict of `HDBSCANClusterer`. -/
structure Assignment where
  archetypeId : ℤ
  distance : ℚ
  coords5D : List ℚ
deriving Repr, DecidableEq

/-- One archetype dict of `HDBSCANClusterer._build_result`. -/
structure Archetype where
  id : ℤ
  label : String
  memberBotIds : List String
  centroid5D : List ℚ
  dominantTraits : List String
  avgPerformance : ℚ
deriving Repr, DecidableEq

/-- Output dict of `HDBSCANClusterer.cluster`; `clusterCount` is absent
(`none`) in the empty-input early return, which instead carries
`timestamp`. -/
structure ClusterResult where
  archetypes : List Archetype
  assignments : List (String × Assignment)
  noise : List String
  silhouetteScore : ℚ
  clusterCount : Option ℕ
  timestamp : Option ℚ

/-- The fixed trait-name table of `_infer_traits`. -/
def traitNames : List String :=
  ["high_frequency", "long_holding", "variable_holding",
   "buy_biased", "direction_flipper",
   "large_positions", "variable_sizing",
   "trend_up_affinity", "trend_down_affinity",
   "range_trader", "volatility_seeker",
   "rsi_contrarian", "bb_mean_reverter",
   "macd_follower", "trend_follower",
   "high_win_rate", "high_returns",
   "sharpe_optimizer", "low_drawdown",
   "high_confidence"]

/-- `np.linalg.norm(v - w)`; `sq` is the opaque square root. -/
def norm2 (sq : ℚ → ℚ) (v w : List ℚ) : ℚ :=
  sq (((v.zip w).map fun p => (p.1 - p.2) ^ 2).sum)

/-- `matrix[idxs]`: row selection by index list. -/
def selectRows (matrix : List (List ℚ)) (idxs : List ℕ) : List (List ℚ) :=
  idxs.map fun i => matrix.getD i []

/-- `HDBSCANClusterer._infer_traits`: the 3 feature dimensions with the
largest absolute mean (stable `np.argsort` ascending, last 3 reversed),
mapped through the trait table. -/
def inferTraits (memberMatrix : List (List ℚ)) : List String :=
  let means := colMeans memberMatrix
  let idx := (List.range means.length).mergeSort fun i j =>
    decide (|means.getD i 0| ≤ |means.getD j 0|)
  let top := (idx.drop (idx.length - 3)).reverse
  top.filterMap fun i =>
    if i < traitNames.length then some (traitNames.getD i "") else none

/-- Python dict construction by repeated assignment
(`d[k] = v` for each pair, in order). -/
def buildDict (kvs : List (String × Assignment)) : List (String × Assignment) :=
  kvs.foldl (fun acc kv => Competitive.dictSet acc kv.1 kv.2) []

/-- The member indices of one cluster label
(`[i for i, l in enumerate(labels) if l == label]`). -/
def memberIndicesOf (labels : List ℤ) (label : ℤ) : List ℕ :=
  (List.range labels.length).filter fun i => labels.getD i 0 == label

/-- The member bot ids of one cluster label. -/
def memberBots (botIds : List String) (labels : List ℤ) (label : ℤ) :
    List String :=
  (memberIndicesOf labels label).map fun i => botIds.getD i ""

/-- `sorted(set(labels) - {-1})`. -/
def uniqueLabelsOf (labels : List ℤ) : List ℤ :=
  ((labels.filter fun l => decide (l ≠ -1)).dedup).mergeSort
    fun a b => decide (a ≤ b)

/-- The archetype list of `_build_result` (lines 79–92). -/
def archetypesOf (botIds : List String) (matrix : List (List ℚ))
    (labels : List ℤ) : List Archetype :=
  (uniqueLabelsOf labels).map fun label =>
    let memberIndices := memberIndicesOf labels label
    { id := label, label := "Archetype-" ++ toString label,
      memberBotIds := memberBots botIds labels label,
      centroid5D := colMeans (selectRows matrix memberIndices),
      dominantTraits := inferTraits (selectRows matrix memberIndices),
      avgPerformance := (0:ℚ) }

/-- The per-member assignments written inside the archetype loop of
`_build_result` (lines 93–100). -/
def archAssignmentsOf (sq : ℚ → ℚ) (botIds : List String)
    (matrix : List (List ℚ)) (labels : List ℤ) : List (String × Assignment) :=
  (uniqueLabelsOf labels).flatMap fun label =>
    let memberIndices := memberIndicesOf labels label
    let centroid := colMeans (selectRows matrix memberIndices)
    (memberBots botIds labels label).map fun bid =>
      let idx := botIds.indexOf bid
      (bid, { archetypeId := label,
              distance := norm2 sq (matrix.getD idx []) centroid,
              coords5D := matrix.getD idx [] : Assignment })

/-- The noise assignments of `_build_result` (lines 103–111). -/
def noiseAssignmentsOf (botIds : List String) (matrix : List (List ℚ))
    (labels : List ℤ) : List (String × Assignment) :=
  (memberBots botIds labels (-1)).map fun bid =>
    let idx := botIds.indexOf bid
    (bid, { archetypeId := -1, distance := 0,
            coords5D := matrix.getD idx [] : Assignment })

/-- `HDBSCANClusterer._build_result`.  `silScore` is the opaque
`sklearn.metrics.silhouette_score`; `sq` the opaque square root of
`np.linalg.norm`. -/
def buildResult (sq : ℚ → ℚ) (silScore : List (List ℚ) → List ℤ → ℚ)
    (botIds : List String) (matrix : List (List ℚ)) (labels : List ℤ) :
    ClusterResult :=
  let nonNoise := labels.filter fun l => decide (l ≠ -1)
  let maskIndices := (List.range labels.length).filter fun i =>
    labels.getD i 0 != (-1 : ℤ)
  let silVal := if nonNoise.dedup.length > 1 ∧ nonNoise.length > 2 then
    silScore (selectRows matrix maskIndices)
      (maskIndices.map fun i => labels.getD i 0)
  else 0
  { archetypes := archetypesOf botIds matrix labels,
    assignments := buildDict (archAssignmentsOf sq botIds matrix labels ++
      noiseAssignmentsOf botIds matrix labels),
    noise := memberBots botIds labels (-1),
    silhouetteScore := pyRound 4 silVal,
    clusterCount := some (archetypesOf botIds matrix labels).length,
    timestamp := none }

/-- `HDBSCANClusterer._single_cluster`. -/
def singleCluster (sq : ℚ → ℚ) (botIds : List String)
    (matrix : List (List ℚ)) : ClusterResult :=
  let centroid := colMeans matrix
  let kvs := botIds.enum.map fun p =>
    (p.2, { archetypeId := 0,
            distance := norm2 sq (matrix.getD p.1 []) centroid,
            coords5D := matrix.getD p.1 [] : Assignment })
  { archetypes := [{ id := 0, label := "Archetype-0", memberBotIds := botIds,
                     centroid5D := centroid, dominantTraits := ["all_bots"],
                     avgPerformance := 0 }],
    assignments := buildDict kvs,
    noise := [],
    silhouetteScore := 0,
    clusterCount := some 1,
    timestamp := none }

/-- `HDBSCANClusterer.cluster`.  `clusterFn` is the opaque clustering
backend (either `hdbscan.HDBSCAN(...).fit_predict` or the k-means
fallback), returning one integer label per row with `-1` meaning noise. -/
def cluster (sq : ℚ → ℚ) (silScore : List (List ℚ) → List ℤ → ℚ)
    (clusterFn : List (List ℚ) → List ℤ)
    (embeddings : List (String × List ℚ)) (minClusterSize : ℕ) : ClusterResult :=
  if embeddings.isEmpty then
    { archetypes := [], assignments := [], noise := [],
      silhouetteScore := 0, clusterCount := none, timestamp := some 0 }
  else
    let botIds := (embeddings.map Prod.fst).mergeSort fun a b => decide (a ≤ b)
    let matrix := botIds.map fun bid =>
      ((embeddings.find? fun p => p.1 == bid).map Prod.snd).getD []
    if botIds.length < minClusterSize * 2 then singleCluster sq botIds matrix
    else buildResult sq silScore botIds matrix (clusterFn matrix)

theorem dictSet_of_not_mem_keys {α : Type} (d : List (String × α)) (k : String)
    (v : α) (h : ∀ p ∈ d, p.1 ≠ k) :
    Competitive.dictSet d k v = d ++ [(k, v)] := by
  unfold Competitive.dictSet
  rw [if_neg]
  simp only [List.any_eq_true, not_exists, not_and]
  intro p hp
  simpa using h p hp

theorem foldl_dictSet_eq_append {α : Type} (kvs : List (String × α)) :
    ∀ acc : List (String × α), ((acc ++ kvs).map Prod.fst).Nodup →
    kvs.foldl (fun a kv => Competitive.dictSet a kv.1 kv.2) acc = acc ++ kvs := by
  induction kvs with
  | nil => intro acc _; simp
  | cons kv t ih =>
      intro acc h
      have hknotin : ∀ p ∈ acc, p.1 ≠ kv.1 := by
        intro p hp heq
        rw [List.map_append, List.nodup_append] at h
        exact h.2.2 (List.mem_map_of_mem Prod.fst hp)
          (by rw [heq]; simp)
      rw [List.foldl_cons, dictSet_of_not_mem_keys _ _ _ hknotin,
        ih (acc ++ [kv]) (by simpa using h)]
      simp

/-- With pairwise-distinct keys, dict construction is just the pair list. -/
theorem buildDict_eq_self (kvs : List (String × Assignment))
    (h : (kvs.map Prod.fst).Nodup) : buildDict kvs = kvs := by
  unfold buildDict
  rw [foldl_dictSet_eq_append kvs [] (by simpa using h)]
  simp

theorem getD_mem_of_lt {α : Type} (l : List α) (d : α) {i : ℕ}
    (h : i < l.length) : l.getD i d ∈ l := by
  rw [List.getD_eq_getElem l d h]
  exact l.getElem_mem h

theorem getD_inj {l : List String} (hnd : l.Nodup) {i j : ℕ}
    (hi : i < l.length) (hj : j < l.length)
    (h : l.getD i "" = l.getD j "") : i = j := by
  rw [List.getD_eq_getElem l _ hi, List.getD_eq_getElem l _ hj] at h
  exact (hnd.getElem_inj_iff).mp h

theorem mem_memberBots_iff (botIds : List String) (labels : List ℤ) (l : ℤ)
    (b : String) :
    b ∈ memberBots botIds labels l ↔
      ∃ i, i < labels.length ∧ labels.getD i 0 = l ∧ botIds.getD i "" = b := by
  simp only [memberBots, memberIndicesOf, List.mem_map, List.mem_filter,
    List.mem_range, beq_iff_eq]
  constructor
  · rintro ⟨i, ⟨hi, hl⟩, hb⟩
    exact ⟨i, hi, hl, hb⟩
  · rintro ⟨i, hi, hl, hb⟩
    exact ⟨i, ⟨hi, hl⟩, hb⟩

theorem memberBots_nodup (botIds : List String) (labels : List ℤ)
    (hnd : botIds.Nodup) (hlen : labels.length = botIds.length) (l : ℤ) :
    (memberBots botIds labels l).Nodup := by
  apply List.Nodup.map_on
  · intro i hi j hj hij
    have hi' : i < labels.length := List.mem_range.mp (List.mem_of_mem_filter hi)
    have hj' : j < labels.length := List.mem_range.mp (List.mem_of_mem_filter hj)
    exact getD_inj hnd (by omega) (by omega) hij
  · exact (List.nodup_range labels.length).filter _

theorem uniqueLabelsOf_nodup (labels : List ℤ) : (uniqueLabelsOf labels).Nodup :=
  ((List.mergeSort_perm _ _).nodup_iff).mpr (labels.filter _).nodup_dedup

theorem mem_uniqueLabelsOf (labels : List ℤ) (l : ℤ) :
    l ∈ uniqueLabelsOf labels ↔ l ∈ labels ∧ l ≠ -1 := by
  rw [uniqueLabelsOf, (List.mergeSort_perm _ _).mem_iff, List.mem_dedup,
    List.mem_filter]
  simp

/-- With distinct bot ids, a bot at index `i₀` belongs to the member list
of label `l` exactly when its own label is `l`. -/
theorem mem_memberBots_unique {botIds : List String} {labels : List ℤ}
    (hnd : botIds.Nodup) (hlen : labels.length = botIds.length)
    {b : String} {i₀ : ℕ} (hi₀ : i₀ < labels.length)
    (hb : botIds.getD i₀ "" = b) (l : ℤ) :
    b ∈ memberBots botIds labels l ↔ labels.getD i₀ 0 = l := by
  rw [mem_memberBots_iff]
  constructor
  · rintro ⟨i, hi, hl, hbi⟩
    have heq : i = i₀ := getD_inj hnd (by omega) (by omega) (hbi.trans hb.symm)
    rwa [heq] at hl
  · intro hl
    exact ⟨i₀, hi₀, hl, hb⟩

theorem archAssignments_keys (sq : ℚ → ℚ) (botIds : List String)
    (matrix : List (List ℚ)) (labels : List ℤ) :
    (archAssignmentsOf sq botIds matrix labels).map Prod.fst =
      (uniqueLabelsOf labels).flatMap (memberBots botIds labels) := by
  simp [archAssignmentsOf, List.map_flatMap, List.map_map, Function.comp_def]

theorem noiseAssignments_keys (botIds : List String) (matrix : List (List ℚ))
    (labels : List ℤ) :
    (noiseAssignmentsOf botIds matrix labels).map Prod.fst =
      memberBots botIds labels (-1) := by
  simp [noiseAssignmentsOf, List.map_map, Function.comp_def]

theorem mem_flatMap_memberBots {botIds : List String} {labels : List ℤ}
    (b : String) :
    b ∈ (uniqueLabelsOf labels).flatMap (memberBots botIds labels) ↔
      ∃ i, i < labels.length ∧ botIds.getD i "" = b ∧ labels.getD i 0 ≠ -1 := by
  rw [List.mem_flatMap]
  constructor
  · rintro ⟨l, hl, hb⟩
    obtain ⟨i, hi, hlab, hbi⟩ := (mem_memberBots_iff botIds labels l b).mp hb
    exact ⟨i, hi, hbi, by rw [hlab]; exact ((mem_uniqueLabelsOf labels l).mp hl).2⟩
  · rintro ⟨i, hi, hbi, hne⟩
    exact ⟨labels.getD i 0,
      (mem_uniqueLabelsOf labels _).mpr ⟨getD_mem_of_lt labels 0 hi, hne⟩,
      (mem_memberBots_iff botIds labels _ b).mpr ⟨i, hi, rfl, hbi⟩⟩

theorem assignment_keys_nodup (sq : ℚ → ℚ) (botIds : List String)
    (matrix : List (List ℚ)) (labels : List ℤ)
    (hnd : botIds.Nodup) (hlen : labels.length = botIds.length) :
    (((archAssignmentsOf sq botIds matrix labels ++
      noiseAssignmentsOf botIds matrix labels)).map Prod.fst).Nodup := by
  rw [List.map_append, archAssignments_keys, noiseAssignments_keys,
    List.nodup_append]
  refine ⟨?_, memberBots_nodup botIds labels hnd hlen _, ?_⟩
  · rw [List.nodup_flatMap]
    refine ⟨fun l _ => memberBots_nodup botIds labels hnd hlen l, ?_⟩
    refine (uniqueLabelsOf_nodup labels).imp ?_
    intro l l' hne b hb hb'
    obtain ⟨i, hi, hlab, hbi⟩ := (mem_memberBots_iff botIds labels l b).mp hb
    obtain ⟨j, hj, hlab', hbj⟩ := (mem_memberBots_iff botIds labels l' b).mp hb'
    have heq : i = j := getD_inj hnd (by omega) (by omega) (hbi.trans hbj.symm)
    exact hne (hlab ▸ heq ▸ hlab')
  · intro b hb hbn
    obtain ⟨i, hi, hbi, hne⟩ := (mem_flatMap_memberBots b).mp hb
    obtain ⟨j, hj, hlab', hbj⟩ := (mem_memberBots_iff botIds labels _ b).mp hbn
    have heq : i = j := getD_inj hnd (by omega) (by omega) (hbi.trans hbj.symm)
    exact hne (heq ▸ hlab')

/-- C7 core, `_build_result` branch: assignments are exactly one per bot,
non-noise bots belong to the member list of exactly one archetype, and
noise bots belong to none and are assigned `archetypeId = -1`. -/
theorem buildResult_partition (sq : ℚ → ℚ)
    (silScore : List (List ℚ) → List ℤ → ℚ) (botIds : List String)
    (matrix : List (List ℚ)) (labels : List ℤ)
    (hnd : botIds.Nodup) (hlen : labels.length = botIds.length) :
    ((buildResult sq silScore botIds matrix labels).assignments.map
      Prod.fst).Perm botIds ∧
    (∀ b ∈ botIds, b ∉ (buildResult sq silScore botIds matrix labels).noise →
      ((buildResult sq silScore botIds matrix labels).archetypes.countP
        fun a => decide (b ∈ a.memberBotIds)) = 1) ∧
    (∀ b ∈ (buildResult sq silScore botIds matrix labels).noise,
      (∀ a ∈ (buildResult sq silScore botIds matrix labels).archetypes,
        b ∉ a.memberBotIds) ∧
      ∃ asg, Competitive.dictGet
          (buildResult sq silScore botIds matrix labels).assignments b =
            some asg ∧ asg.archetypeId = -1) := by
  have hknodup := assignment_keys_nodup sq botIds matrix labels hnd hlen
  have hassign : (buildResult sq silScore botIds matrix labels).assignments =
      archAssignmentsOf sq botIds matrix labels ++
        noiseAssignmentsOf botIds matrix labels := by
    show buildDict _ = _
    exact buildDict_eq_self _ hknodup
  have hnoise : (buildResult sq silScore botIds matrix labels).noise =
      memberBots botIds labels (-1) := rfl
  have harch : (buildResult sq silScore botIds matrix labels).archetypes =
      archetypesOf botIds matrix labels := rfl
  refine ⟨?_, ?_, ?_⟩
  · -- one assignment per bot: keys are a permutation of botIds
    rw [hassign]
    have hkeys : ∀ b, b ∈ (archAssignmentsOf sq botIds matrix labels ++
        noiseAssignmentsOf botIds matrix labels).map Prod.fst ↔ b ∈ botIds := by
      intro b
      rw [List.map_append, archAssignments_keys, noiseAssignments_keys,
        List.mem_append, mem_flatMap_memberBots, mem_memberBots_iff]
      constructor
      · rintro (⟨i, hi, hbi, _⟩ | ⟨i, hi, _, hbi⟩) <;>
          exact hbi ▸ getD_mem_of_lt botIds "" (by omega)
      · intro hb
        obtain ⟨i, hi, hbi⟩ := List.mem_iff_getElem.mp hb
        have hi' : i < labels.length := by omega
        have hgd : botIds.getD i "" = b := by
          rw [List.getD_eq_getElem botIds "" hi]; exact hbi
        by_cases hm1 : labels.getD i 0 = -1
        · exact Or.inr ⟨i, hi', hm1, hgd⟩
        · exact Or.inl ⟨i, hi', hgd, hm1⟩
    exact (List.perm_ext_iff_of_nodup hknodup hnd).mpr hkeys
  · -- non-noise bots: exactly one archetype
    intro b hb hnb
    rw [hnoise] at hnb
    rw [harch]
    obtain ⟨i₀, hi₀b, hbi₀⟩ := List.mem_iff_getElem.mp hb
    have hi₀ : i₀ < labels.length := by omega
    have hgd : botIds.getD i₀ "" = b := by
      rw [List.getD_eq_getElem botIds "" hi₀b]; exact hbi₀
    have hlab : labels.getD i₀ 0 ≠ -1 := fun hm1 =>
      hnb ((mem_memberBots_unique hnd hlen hi₀ hgd (-1)).mpr hm1)
    rw [archetypesOf, List.countP_map]
    rw [List.countP_congr (q := fun l => l == labels.getD i₀ 0) ?_]
    · show (uniqueLabelsOf labels).count (labels.getD i₀ 0) = 1
      exact List.count_eq_one_of_mem (uniqueLabelsOf_nodup labels)
        ((mem_uniqueLabelsOf labels _).mpr ⟨getD_mem_of_lt labels 0 hi₀, hlab⟩)
    · intro l _
      simp only [Function.comp_apply, decide_eq_true_eq, beq_iff_eq]
      rw [mem_memberBots_unique hnd hlen hi₀ hgd l]
      exact ⟨Eq.symm, Eq.symm⟩
  · -- noise bots: no archetype, assignment id -1
    intro b hb
    rw [hnoise] at hb
    obtain ⟨i₀, hi₀, hlab, hgd⟩ := (mem_memberBots_iff botIds labels _ b).mp hb
    constructor
    · intro a ha hmem
      rw [harch, archetypesOf, List.mem_map] at ha
      obtain ⟨l, hl, rfl⟩ := ha
      have hlne : l ≠ -1 := ((mem_uniqueLabelsOf labels l).mp hl).2
      have : labels.getD i₀ 0 = l :=
        (mem_memberBots_unique hnd hlen hi₀ hgd l).mp hmem
      exact hlne (this ▸ hlab)
    · rw [hassign]
      have hnotarch : (archAssignmentsOf sq botIds matrix labels).find?
          (fun p => p.1 == b) = none := by
        rw [List.find?_eq_none]
        intro p hp hpb
        have hpk : p.1 ∈ (archAssignmentsOf sq botIds matrix labels).map
            Prod.fst := List.mem_map_of_mem Prod.fst hp
        rw [archAssignments_keys, mem_flatMap_memberBots] at hpk
        obtain ⟨i, hi, hbi, hne⟩ := hpk
        have hpb' : p.1 = b := by simpa using hpb
        have heq : i = i₀ := getD_inj hnd (by omega) (by omega)
          (by rw [hbi, hpb', hgd])
        exact hne (heq ▸ hlab)
      have hfind : ((noiseAssignmentsOf botIds matrix labels).find?
          (fun p => p.1 == b)).isSome := by
        rw [List.find?_isSome, noiseAssignmentsOf]
        exact ⟨_, List.mem_map_of_mem _ hb, by simp⟩
      obtain ⟨q, hq⟩ := Option.isSome_iff_exists.mp hfind
      have hqmem := List.mem_of_find?_eq_some hq
      rw [noiseAssignmentsOf, List.mem_map] at hqmem
      obtain ⟨bid, _, hqeq⟩ := hqmem
      refine ⟨q.2, ?_, ?_⟩
      · rw [Competitive.dictGet, List.find?_append, hnotarch, Option.none_or, hq]
        rfl
      · rw [← hqeq]

/-- C7 core, `_single_cluster` branch: one assignment per bot, every bot in
the single archetype, no noise. -/
theorem singleCluster_partition (sq : ℚ → ℚ) (botIds : List String)
    (matrix : List (List ℚ)) (hnd : botIds.Nodup) :
    ((singleCluster sq botIds matrix).assignments.map Prod.fst).Perm botIds ∧
    (∀ b ∈ botIds, b ∉ (singleCluster sq botIds matrix).noise →
      ((singleCluster sq botIds matrix).archetypes.countP
        fun a => decide (b ∈ a.memberBotIds)) = 1) ∧
    (∀ b ∈ (singleCluster sq botIds matrix).noise,
      (∀ a ∈ (singleCluster sq botIds matrix).archetypes,
        b ∉ a.memberBotIds) ∧
      ∃ asg, Competitive.dictGet (singleCluster sq botIds matrix).assignments b =
        some asg ∧ asg.archetypeId = -1) := by
  have hkeys : ((botIds.enum.map fun p =>
      (p.2, { archetypeId := 0,
              distance := norm2 sq (matrix.getD p.1 []) (colMeans matrix),
              coords5D := matrix.getD p.1 [] : Assignment })).map Prod.fst) =
      botIds := by
    rw [List.map_map]
    simp [Function.comp_def]
  have hassign : (singleCluster sq botIds matrix).assignments =
      botIds.enum.map fun p =>
        (p.2, { archetypeId := 0,
                distance := norm2 sq (matrix.getD p.1 []) (colMeans matrix),
                coords5D := matrix.getD p.1 [] : Assignment }) := by
    show buildDict _ = _
    exact buildDict_eq_self _ (by rw [hkeys]; exact hnd)
  refine ⟨?_, ?_, ?_⟩
  · rw [hassign, hkeys]
  · intro b hb _
    show List.countP _ [_] = 1
    simp [hb]
  · intro b hb
    exact absurd hb (by simp [singleCluster])

/-- C7: for every clustering input with distinct bot ids and any
length-preserving clustering backend, archetype membership partitions the
non-noise bot set — every embedded bot receives exactly one assignment
(the assignment keys are a permutation of the bot ids), every non-noise
bot is in the memberBotIds of exactly one archetype, and every noise bot
is in no archetype and is assigned `archetypeId = -1`. -/
theorem cluster_partition (sq : ℚ → ℚ)
    (silScore : List (List ℚ) → List ℤ → ℚ)
    (clusterFn : List (List ℚ) → List ℤ)
    (embeddings : List (String × List ℚ)) (minClusterSize : ℕ)
    (hkeys : (embeddings.map Prod.fst).Nodup)
    (hclen : ∀ m, (clusterFn m).length = m.length) :
    ((cluster sq silScore clusterFn embeddings minClusterSize).assignments.map
      Prod.fst).Perm (embeddings.map Prod.fst) ∧
    (∀ b ∈ embeddings.map Prod.fst,
      b ∉ (cluster sq silScore clusterFn embeddings minClusterSize).noise →
      ((cluster sq silScore clusterFn embeddings minClusterSize).archetypes.countP
        fun a => decide (b ∈ a.memberBotIds)) = 1) ∧
    (∀ b ∈ (cluster sq silScore clusterFn embeddings minClusterSize).noise,
      (∀ a ∈ (cluster sq silScore clusterFn embeddings minClusterSize).archetypes,
        b ∉ a.memberBotIds) ∧
      ∃ asg, Competitive.dictGet
          (cluster sq silScore clusterFn embeddings minClusterSize).assignments b =
        some asg ∧ asg.archetypeId = -1) := by
  by_cases hemp : embeddings.isEmpty
  · have hnil : embeddings = [] := List.isEmpty_iff.mp hemp
    subst hnil
    refine ⟨by simp [cluster], by simp, by simp [cluster]⟩
  · have hperm : ((embeddings.map Prod.fst).mergeSort
        fun a b => decide (a ≤ b)).Perm (embeddings.map Prod.fst) :=
      List.mergeSort_perm _ _
    have hndbot : ((embeddings.map Prod.fst).mergeSort
        fun a b => decide (a ≤ b)).Nodup := hperm.nodup_iff.mpr hkeys
    simp only [cluster, hemp, Bool.false_eq_true, if_false]
    split_ifs with hsmall
    · obtain ⟨h1, h2, h3⟩ := singleCluster_partition sq
        ((embeddings.map Prod.fst).mergeSort fun a b => decide (a ≤ b))
        (((embeddings.map Prod.fst).mergeSort fun a b => decide (a ≤ b)).map
          fun bid => ((embeddings.find? fun p => p.1 == bid).map Prod.snd).getD [])
        hndbot
      exact ⟨h1.trans hperm, fun b hb => h2 b (hperm.mem_iff.mpr hb), h3⟩
    · have hlen : (clusterFn (((embeddings.map Prod.fst).mergeSort
          fun a b => decide (a ≤ b)).map fun bid =>
            ((embeddings.find? fun p => p.1 == bid).map Prod.snd).getD [])).length =
          ((embeddings.map Prod.fst).mergeSort fun a b => decide (a ≤ b)).length := by
        rw [hclen, List.length_map]
      obtain ⟨h1, h2, h3⟩ := buildResult_partition sq silScore
        ((embeddings.map Prod.fst).mergeSort fun a b => decide (a ≤ b))
        (((embeddings.map Prod.fst).mergeSort fun a b => decide (a ≤ b)).map
          fun bid => ((embeddings.find? fun p => p.1 == bid).map Prod.snd).getD [])
        (clusterFn (((embeddings.map Prod.fst).mergeSort
          fun a b => decide (a ≤ b)).map fun bid =>
            ((embeddings.find? fun p => p.1 == bid).map Prod.snd).getD []))
        hndbot hlen
      exact ⟨h1.trans hperm, fun b hb => h2 b (hperm.mem_iff.mpr hb), h3⟩

/-- C7 witness: the partition invariants discharged on a one-bot input with
a stub clustering backend. -/
theorem cluster_partition_witness :
    ((cluster id (fun _ _ => 0) (fun m => m.map fun _ => 0)
      [("a", [1])] 3).assignments.map Prod.fst).Perm
        ([("a", [1])].map Prod.fst) ∧
    (∀ b ∈ [("a", [1])].map Prod.fst,
      b ∉ (cluster id (fun _ _ => 0) (fun m => m.map fun _ => 0)
        [("a", [1])] 3).noise →
      ((cluster id (fun _ _ => 0) (fun m => m.map fun _ => 0)
        [("a", [1])] 3).archetypes.countP
          fun a => decide (b ∈ a.memberBotIds)) = 1) ∧
    (∀ b ∈ (cluster id (fun _ _ => 0) (fun m => m.map fun _ => 0)
        [("a", [1])] 3).noise,
      (∀ a ∈ (cluster id (fun _ _ => 0) (fun m => m.map fun _ => 0)
        [("a", [1])] 3).archetypes, b ∉ a.memberBotIds) ∧
      ∃ asg, Competitive.dictGet (cluster id (fun _ _ => 0)
          (fun m => m.map fun _ => 0) [("a", [1])] 3).assignments b =
        some asg ∧ asg.archetypeId = -1) :=
  cluster_partition id (fun _ _ => 0) (fun m => m.map fun _ => 0)
    [("a", [1])] 3 (by decide) (fun m => by simp)

end Patterns

end Spec2Proof
